import Mathlib

/-!
Verification development for the Component Decomposer
(`component-parser` / `decomposer` crates): a shallow embedding of the
Component IR, the alias resolver, the linking-metadata builder and the
rewriter, with theorems about the specified behaviour.

Conventions of the embedding:
* Rust `u32` indices become `Nat` (no index arithmetic overflows are
  reachable in the modelled code paths).
* Rust panics (`panic!`, `expect`, `unwrap`, `assert!`, failed indexing)
  and `anyhow` errors both abort the run; both are modelled as
  `Except.error` with the corresponding message.
* Rust `HashMap`s are modelled as association lists with unique keys;
  `HashMap::insert` replaces an existing binding in place.  Where the
  source code *iterates* a `HashMap` (whose iteration order is
  unspecified and varies between processes), the iteration order is an
  explicit argument of the modelled function.
* Recursive alias resolution is total via an explicit fuel argument;
  running out of fuel is an error, corresponding to the unbounded
  recursion (stack overflow) the source would exhibit on such inputs.
-/

namespace Decompose

/-- Core wasm external kinds (`wasmparser::ExternalKind`). -/
inductive ExternalKind where
  | func
  | funcExact
  | table
  | memory
  | global
  | tag
deriving DecidableEq, Repr

/-- Component-level external kinds (`wasmparser::ComponentExternalKind`). -/
inductive ComponentExternalKind where
  | module
  | func
  | value
  | ty
  | inst
  | comp
deriving DecidableEq, Repr

/-- Canonical options (`wasmparser::CanonicalOption`).  `compactUTF16` is a
representative of the variants that fall into the catch-all arm of
`CanonicalOptionsIndex::from_options`. -/
inductive CanonicalOption where
  | utf8
  | utf16
  | compactUTF16
  | memory (idx : Nat)
  | realloc (idx : Nat)
  | postReturn (idx : Nat)
deriving DecidableEq, Repr

/-- An import entry of a core wasm module: the `(module, name)` pair.
Modelled from the spec: the Core-Module IR (`wirm::Module`) is an external
collaborator; per §2 it exposes an ordered import list of
`(module, name, type)` triples addressable by position (types are not
inspected by the modelled code). -/
structure WasmImport where
  module : String
  name : String
deriving DecidableEq, Repr

/-- An export entry of a core wasm module: `(name, external-kind, index)`.
Modelled from the spec: part of the external Core-Module IR (§2). -/
structure WasmExport where
  name : String
  kind : ExternalKind
  index : Nat
deriving DecidableEq, Repr

/-- The external Core-Module IR (`wirm::Module`).
Modelled from the spec: an ordered import list, an ordered export list and
a mutable module-name field (§2); the custom-section payload of an emitted
module is tracked separately by the rewriter model. -/
structure WasmModule where
  imports : List WasmImport
  exports : List WasmExport
  module_name : Option String
deriving DecidableEq, Repr

/-- `ir/nodes.rs` `AliasInfo`. -/
inductive AliasInfo where
  | instanceExport (instance_idx : Nat) (name : String)
  | coreInstanceExport (instance_idx : Nat) (name : String)
  | outer (count : Nat) (index : Nat)
deriving DecidableEq, Repr

/-- `ir/nodes.rs` `CoreFuncNode` (with the `ResourceDrop` variant used by
`ir/resolve.rs` and the decompose binary). -/
inductive CoreFuncNode where
  | aliased (info : AliasInfo)
  | lowered (func_idx : Nat) (options : List CanonicalOption)
  | resourceDrop (resource : Nat)
deriving DecidableEq, Repr

/-- `ir/nodes.rs` `CoreMemoryNode`. -/
inductive CoreMemoryNode where
  | aliased (info : AliasInfo)
deriving DecidableEq, Repr

/-- `ir/nodes.rs` `CoreTableNode`. -/
inductive CoreTableNode where
  | aliased (info : AliasInfo)
deriving DecidableEq, Repr

/-- `ir/nodes.rs` `CoreGlobalNode`. -/
inductive CoreGlobalNode where
  | aliased (info : AliasInfo)
deriving DecidableEq, Repr

/-- The kind of a core instantiation arg (`wasmparser::InstantiationArgKind`,
matched by the decompose binary; it has a single variant). -/
inductive InstantiationArgKind where
  | inst
deriving DecidableEq, Repr

/-- `ir/nodes.rs` `CoreInstantiationArg` (with the arg kind the decompose
binary matches on). -/
structure CoreInstantiationArg where
  name : String
  kind : InstantiationArgKind
  index : Nat
deriving DecidableEq, Repr

/-- A core-instance inline export (`Export` as consumed by
`gather_instance_link`: name, core external kind, index). -/
structure CoreExport where
  name : String
  kind : ExternalKind
  index : Nat
deriving DecidableEq, Repr

/-- `ir/nodes.rs` `CoreInstanceNode`. -/
inductive CoreInstanceNode where
  | aliased (info : AliasInfo)
  | instantiated (module_idx : Nat) (args : List CoreInstantiationArg)
  | fromExports (exports : List CoreExport)
deriving DecidableEq, Repr

/-- `ir/nodes.rs` `ModuleNode`: a core module is imported, aliased or
defined inline. -/
inductive ModuleNode where
  | imported (import_idx : Nat)
  | aliased (info : AliasInfo)
  | defined (module : WasmModule)
deriving DecidableEq, Repr

/-- `ir/nodes.rs` `ComponentFuncNode`. -/
inductive ComponentFuncNode where
  | imported (import_idx : Nat)
  | aliased (info : AliasInfo)
  | lifted (core_func_idx : Nat) (type_idx : Nat) (options : List CanonicalOption)
deriving DecidableEq, Repr

/-- `ir/nodes.rs` `ValueNode`. -/
inductive ValueNode where
  | imported (import_idx : Nat)
  | aliased (info : AliasInfo)
deriving DecidableEq, Repr

/-- `ir/nodes.rs` `TypeNode` (the payload of a defined type is never
inspected by the modelled code paths). -/
inductive TypeNode where
  | defined
  | imported (import_idx : Nat)
  | aliased (info : AliasInfo)
deriving DecidableEq, Repr

/-- `ir/nodes.rs` `CoreTypeNode`. -/
inductive CoreTypeNode where
  | defined
  | aliased (info : AliasInfo)
deriving DecidableEq, Repr

/-- `ir/nodes.rs` `InstantiationArg` (component-level). -/
structure InstantiationArg where
  name : String
  kind : ComponentExternalKind
  index : Nat
deriving DecidableEq, Repr

/-- `ir/nodes.rs` `InlineExport` (component-level). -/
structure InlineExport where
  name : String
  kind : ComponentExternalKind
  index : Nat
deriving DecidableEq, Repr

/-- `ir/nodes.rs` `ComponentInstanceNode`. -/
inductive ComponentInstanceNode where
  | imported (import_idx : Nat)
  | aliased (info : AliasInfo)
  | instantiated (component_idx : Nat) (args : List InstantiationArg)
  | fromExports (exports : List InlineExport)
deriving DecidableEq, Repr

/-- A component-level type reference (`wasmparser::ComponentTypeRef`),
carried by import records. -/
inductive ComponentTypeRef where
  | module
  | func
  | value
  | ty
  | inst
  | comp
deriving DecidableEq, Repr

/-- An entry of the component `imports` vector
(`wasmparser::ComponentImport`: name and type reference). -/
structure ComponentImport where
  name : String
  ty : ComponentTypeRef
deriving DecidableEq, Repr

/-- `ir.rs` `ExportNode`: a component-level export record. -/
structure ExportNode where
  name : String
  kind : ComponentExternalKind
  index : Nat
  ty : Option Nat
deriving DecidableEq, Repr

/-- `ir.rs` `ParentScope`, parameterised by the component type.  A live
weak reference is `component (some c)`; a dropped one is
`component none`. -/
inductive ParentScope (C : Type) where
  | component (weak : Option C)
  | componentType
  | instanceType

/-- `ir/nodes.rs` `ComponentNode`, parameterised by the component type. -/
inductive ComponentNode (C : Type) where
  | imported (import_idx : Nat)
  | aliased (info : AliasInfo)
  | defined (component : C)

/-- `ir.rs` `Component`: the twelve index spaces, imports, exports and the
parent-scope chain.  The component exports map is an `IndexMap` keyed by
export name, modelled as an insertion-ordered association list. -/
inductive Component where
  | mk
      (parents : List (ParentScope Component))
      (imports : List ComponentImport)
      (modules : List ModuleNode)
      (components : List (ComponentNode Component))
      (instances : List ComponentInstanceNode)
      (funcs : List ComponentFuncNode)
      (values : List ValueNode)
      (types : List TypeNode)
      (core_instances : List CoreInstanceNode)
      (core_funcs : List CoreFuncNode)
      (core_memories : List CoreMemoryNode)
      (core_tables : List CoreTableNode)
      (core_globals : List CoreGlobalNode)
      (core_types : List CoreTypeNode)
      (exports : List (String × ExportNode)) : Component

def Component.parents : Component → List (ParentScope Component)
  | .mk p _ _ _ _ _ _ _ _ _ _ _ _ _ _ => p

def Component.imports : Component → List ComponentImport
  | .mk _ i _ _ _ _ _ _ _ _ _ _ _ _ _ => i

def Component.modules : Component → List ModuleNode
  | .mk _ _ m _ _ _ _ _ _ _ _ _ _ _ _ => m

def Component.components : Component → List (ComponentNode Component)
  | .mk _ _ _ c _ _ _ _ _ _ _ _ _ _ _ => c

def Component.instances : Component → List ComponentInstanceNode
  | .mk _ _ _ _ i _ _ _ _ _ _ _ _ _ _ => i

def Component.funcs : Component → List ComponentFuncNode
  | .mk _ _ _ _ _ f _ _ _ _ _ _ _ _ _ => f

def Component.values : Component → List ValueNode
  | .mk _ _ _ _ _ _ v _ _ _ _ _ _ _ _ => v

def Component.types : Component → List TypeNode
  | .mk _ _ _ _ _ _ _ t _ _ _ _ _ _ _ => t

def Component.core_instances : Component → List CoreInstanceNode
  | .mk _ _ _ _ _ _ _ _ ci _ _ _ _ _ _ => ci

def Component.core_funcs : Component → List CoreFuncNode
  | .mk _ _ _ _ _ _ _ _ _ cf _ _ _ _ _ => cf

def Component.core_memories : Component → List CoreMemoryNode
  | .mk _ _ _ _ _ _ _ _ _ _ cm _ _ _ _ => cm

def Component.core_tables : Component → List CoreTableNode
  | .mk _ _ _ _ _ _ _ _ _ _ _ ct _ _ _ => ct

def Component.core_globals : Component → List CoreGlobalNode
  | .mk _ _ _ _ _ _ _ _ _ _ _ _ cg _ _ => cg

def Component.core_types : Component → List CoreTypeNode
  | .mk _ _ _ _ _ _ _ _ _ _ _ _ _ cty _ => cty

def Component.exports : Component → List (String × ExportNode)
  | .mk _ _ _ _ _ _ _ _ _ _ _ _ _ _ e => e

/-! ### Resolved forms (`ir/nodes.rs`, resolved variants) -/

/-- `ResolvedImport`: direct (name and type reference) or indirect (through
an imported component instance). -/
inductive ResolvedImport where
  | direct (name : String) (tyref : ComponentTypeRef)
  | indirect
deriving DecidableEq, Repr

/-- `ResolvedModule`. -/
inductive ResolvedModule where
  | imported (ri : ResolvedImport)
  | defined (module : WasmModule)
deriving DecidableEq, Repr

/-- `ResolvedComponentInstance`. -/
inductive ResolvedComponentInstance where
  | imported (ri : ResolvedImport)
  | instantiated (component_idx : Nat) (args : List InstantiationArg)
  | fromExports (exports : List InlineExport)
deriving DecidableEq, Repr

/-- `ResolvedComponentFunc`. -/
inductive ResolvedComponentFunc where
  | imported (ri : ResolvedImport)
  | lifted (core_func_idx : Nat) (type_idx : Nat) (options : List CanonicalOption)
deriving DecidableEq, Repr

/-- `ResolvedCoreInstance`. -/
inductive ResolvedCoreInstance where
  | instantiated (module_idx : Nat) (args : List CoreInstantiationArg)
  | fromExports (exports : List CoreExport)
deriving DecidableEq, Repr

/-- `ResolvedCoreFunc`. -/
inductive ResolvedCoreFunc where
  | lowered (func_idx : Nat) (options : List CanonicalOption)
  | fromModule (module_idx : Nat) (func_idx : Nat)
  | resourceDrop (resource : Nat)
deriving DecidableEq, Repr

/-- `ResolvedCoreMemory`. -/
structure ResolvedCoreMemory where
  module_idx : Nat
  memory_idx : Nat
deriving DecidableEq, Repr

/-- `ResolvedCoreTable`. -/
structure ResolvedCoreTable where
  module_idx : Nat
  table_idx : Nat
deriving DecidableEq, Repr

/-- `ResolvedCoreGlobal`. -/
structure ResolvedCoreGlobal where
  module_idx : Nat
  global_idx : Nat
deriving DecidableEq, Repr

/-- `ir/resolve.rs` `ResolvedAliasExportComponentInstance`. -/
inductive ResolvedAliasExportComponentInstance where
  | defined (component : Component) (export_idx : Nat)
  | imported

/-! ### The resolver (`ir/resolve.rs`) -/

/-- Printable name of a core external kind, used in resolver diagnostics. -/
def external_kind_repr : ExternalKind → String
  | .func => "Func"
  | .funcExact => "FuncExact"
  | .table => "Table"
  | .memory => "Memory"
  | .global => "Global"
  | .tag => "Tag"

/-- The mismatch diagnostic of `resolve_alias_export_core_instance`: it
names the export and prints both the found kind and the expected kind. -/
def kind_mismatch_msg (name : String) (actual expected : ExternalKind) : String :=
  "Export " ++ name ++ " has kind " ++ external_kind_repr actual ++
    ", expected " ++ external_kind_repr expected

/-- `ExternalKind::FuncExact` is normalised to `Func` when kinds are
compared in the instantiated-module branch of
`resolve_alias_export_core_instance`. -/
def external_kind_normalize : ExternalKind → ExternalKind
  | .funcExact => .func
  | k => k

/-- `Component::get_resolved_import`: look an import up by index; an
out-of-bounds index is a panic. -/
def get_resolved_import (c : Component) (import_idx : Nat) :
    Except String ResolvedImport :=
  match c.imports[import_idx]? with
  | none => .error "Import index out of bounds"
  | some i => .ok (.direct i.name i.ty)

/-- `Component::get_parent_component`: `count = 0` is rejected, a `count`
beyond the parent chain is rejected, a dropped weak reference is a fatal
error, and non-component parent scopes are unsupported. -/
def get_parent_component (c : Component) (count : Nat) :
    Except String Component :=
  if count = 0 then
    .error "Outer alias count=0 is invalid (refers to current scope)"
  else
    match c.parents[count - 1]? with
    | none => .error "Outer alias count exceeds the available parents"
    | some (.component (some p)) => .ok p
    | some (.component none) => .error "Parent component was dropped (Weak reference expired)"
    | some .componentType => .error "Cannot resolve Outer alias: parent is a ComponentType (not yet supported)"
    | some .instanceType => .error "Cannot resolve Outer alias: parent is an InstanceType (not yet supported)"

/-- `Component::resolve_alias_export_component_instance`: look into the
aliased component instance.  The `FromExports` branch checks name and kind
and then fails (not yet implemented in the source); aliased instances are
a programmer error. -/
def resolve_alias_export_component_instance (c : Component)
    (instance_idx : Nat) (name : String) (expected_kind : ComponentExternalKind) :
    Except String ResolvedAliasExportComponentInstance :=
  match c.instances[instance_idx]? with
  | none => .error "Instance index out of bounds"
  | some (.instantiated component_idx _) =>
    match c.components[component_idx]? with
    | none => .error "Component index out of bounds"
    | some (.defined nested) =>
      match (Component.exports nested).lookup name with
      | none => .error ("Export " ++ name ++ " not found in component")
      | some e =>
        if e.kind ≠ expected_kind then
          .error ("Export " ++ name ++ " has unexpected component kind")
        else
          .ok (.defined nested e.index)
    | some _ => .error "Component is not defined inline (imported or aliased)"
  | some (.fromExports exports) =>
    match exports.find? (fun e => e.name == name) with
    | none => .error ("Export " ++ name ++ " not found in FromExports instance")
    | some e =>
      if e.kind ≠ expected_kind then
        .error ("Export " ++ name ++ " has unexpected component kind")
      else
        .error "Cannot resolve InstanceExport through FromExports instance - not yet implemented"
  | some (.imported _) => .ok .imported
  | some (.aliased _) => .error "Cannot resolve InstanceExport alias through aliased instance - resolve the instance first"

mutual

/-- `resolve_module` (`Resolve for ModuleNode` plus `resolve_index`):
follow aliases to the root form.  `fuel` bounds the recursion depth; the
source recurses unboundedly. -/
def resolve_module : Nat → Component → Nat → Except String ResolvedModule
  | 0, _, _ => .error "resolution fuel exhausted"
  | fuel + 1, c, idx =>
    match c.modules[idx]? with
    | none => .error "Index out of bounds"
    | some (.defined m) => .ok (.defined m)
    | some (.imported i) =>
      match get_resolved_import c i with
      | .error e => .error e
      | .ok ri => .ok (.imported ri)
    | some (.aliased (.instanceExport ii name)) =>
      match resolve_alias_export_component_instance c ii name .module with
      | .error e => .error e
      | .ok (.defined nested eidx) => resolve_module fuel nested eidx
      | .ok .imported => .ok (.imported .indirect)
    | some (.aliased (.outer count index)) =>
      match get_parent_component c count with
      | .error e => .error e
      | .ok p => resolve_module fuel p index
    | some (.aliased (.coreInstanceExport _ _)) =>
      .error "Module cannot be aliased from CoreInstanceExport"
  termination_by structural fuel _ _ => fuel

/-- `resolve_component_instance`. -/
def resolve_component_instance : Nat → Component → Nat → Except String ResolvedComponentInstance
  | 0, _, _ => .error "resolution fuel exhausted"
  | fuel + 1, c, idx =>
    match c.instances[idx]? with
    | none => .error "Index out of bounds"
    | some (.instantiated ci args) => .ok (.instantiated ci args)
    | some (.fromExports exports) => .ok (.fromExports exports)
    | some (.imported i) =>
      match get_resolved_import c i with
      | .error e => .error e
      | .ok ri => .ok (.imported ri)
    | some (.aliased (.instanceExport ii name)) =>
      match resolve_alias_export_component_instance c ii name .inst with
      | .error e => .error e
      | .ok (.defined nested eidx) => resolve_component_instance fuel nested eidx
      | .ok .imported => .ok (.imported .indirect)
    | some (.aliased (.outer count index)) =>
      match get_parent_component c count with
      | .error e => .error e
      | .ok p => resolve_component_instance fuel p index
    | some (.aliased (.coreInstanceExport _ _)) =>
      .error "Component instance cannot be aliased from CoreInstanceExport"
  termination_by structural fuel _ _ => fuel

/-- `resolve_component_func`. -/
def resolve_component_func : Nat → Component → Nat → Except String ResolvedComponentFunc
  | 0, _, _ => .error "resolution fuel exhausted"
  | fuel + 1, c, idx =>
    match c.funcs[idx]? with
    | none => .error "Index out of bounds"
    | some (.lifted cfi ti options) => .ok (.lifted cfi ti options)
    | some (.imported i) =>
      match get_resolved_import c i with
      | .error e => .error e
      | .ok ri => .ok (.imported ri)
    | some (.aliased (.instanceExport ii name)) =>
      match resolve_alias_export_component_instance c ii name .func with
      | .error e => .error e
      | .ok (.defined nested eidx) => resolve_component_func fuel nested eidx
      | .ok .imported => .ok (.imported .indirect)
    | some (.aliased (.outer count index)) =>
      match get_parent_component c count with
      | .error e => .error e
      | .ok p => resolve_component_func fuel p index
    | some (.aliased (.coreInstanceExport _ _)) =>
      .error "Component func cannot be aliased from CoreInstanceExport"
  termination_by structural fuel _ _ => fuel

/-- `resolve_core_instance`. -/
def resolve_core_instance : Nat → Component → Nat → Except String ResolvedCoreInstance
  | 0, _, _ => .error "resolution fuel exhausted"
  | fuel + 1, c, idx =>
    match c.core_instances[idx]? with
    | none => .error "Index out of bounds"
    | some (.instantiated mi args) => .ok (.instantiated mi args)
    | some (.fromExports exports) => .ok (.fromExports exports)
    | some (.aliased (.outer count index)) =>
      match get_parent_component c count with
      | .error e => .error e
      | .ok p => resolve_core_instance fuel p index
    | some (.aliased (.instanceExport _ _)) =>
      .error "Core instance cannot be aliased from component InstanceExport"
    | some (.aliased (.coreInstanceExport _ _)) =>
      .error "Core instance cannot be aliased from CoreInstanceExport"
  termination_by structural fuel _ _ => fuel

/-- `resolve_core_func`. -/
def resolve_core_func : Nat → Component → Nat → Except String ResolvedCoreFunc
  | 0, _, _ => .error "resolution fuel exhausted"
  | fuel + 1, c, idx =>
    match c.core_funcs[idx]? with
    | none => .error "Index out of bounds"
    | some (.lowered fi options) => .ok (.lowered fi options)
    | some (.resourceDrop r) => .ok (.resourceDrop r)
    | some (.aliased (.coreInstanceExport ii name)) =>
      match resolve_alias_export_core_instance fuel c ii name .func with
      | .error e => .error e
      | .ok (mi, fi) => .ok (.fromModule mi fi)
    | some (.aliased (.outer count index)) =>
      match get_parent_component c count with
      | .error e => .error e
      | .ok p => resolve_core_func fuel p index
    | some (.aliased (.instanceExport _ _)) =>
      .error "Core func cannot be aliased from component InstanceExport"
  termination_by structural fuel _ _ => fuel

/-- `resolve_core_memory`. -/
def resolve_core_memory : Nat → Component → Nat → Except String ResolvedCoreMemory
  | 0, _, _ => .error "resolution fuel exhausted"
  | fuel + 1, c, idx =>
    match c.core_memories[idx]? with
    | none => .error "Index out of bounds"
    | some (.aliased (.coreInstanceExport ii name)) =>
      match resolve_alias_export_core_instance fuel c ii name .memory with
      | .error e => .error e
      | .ok (mi, memi) => .ok ⟨mi, memi⟩
    | some (.aliased (.outer count index)) =>
      match get_parent_component c count with
      | .error e => .error e
      | .ok p => resolve_core_memory fuel p index
    | some (.aliased (.instanceExport _ _)) =>
      .error "Core memory cannot be aliased from component InstanceExport"
  termination_by structural fuel _ _ => fuel

/-- `resolve_core_table`. -/
def resolve_core_table : Nat → Component → Nat → Except String ResolvedCoreTable
  | 0, _, _ => .error "resolution fuel exhausted"
  | fuel + 1, c, idx =>
    match c.core_tables[idx]? with
    | none => .error "Index out of bounds"
    | some (.aliased (.coreInstanceExport ii name)) =>
      match resolve_alias_export_core_instance fuel c ii name .table with
      | .error e => .error e
      | .ok (mi, ti) => .ok ⟨mi, ti⟩
    | some (.aliased (.outer count index)) =>
      match get_parent_component c count with
      | .error e => .error e
      | .ok p => resolve_core_table fuel p index
    | some (.aliased (.instanceExport _ _)) =>
      .error "Core table cannot be aliased from component InstanceExport"
  termination_by structural fuel _ _ => fuel

/-- `resolve_core_global`. -/
def resolve_core_global : Nat → Component → Nat → Except String ResolvedCoreGlobal
  | 0, _, _ => .error "resolution fuel exhausted"
  | fuel + 1, c, idx =>
    match c.core_globals[idx]? with
    | none => .error "Index out of bounds"
    | some (.aliased (.coreInstanceExport ii name)) =>
      match resolve_alias_export_core_instance fuel c ii name .global with
      | .error e => .error e
      | .ok (mi, gi) => .ok ⟨mi, gi⟩
    | some (.aliased (.outer count index)) =>
      match get_parent_component c count with
      | .error e => .error e
      | .ok p => resolve_core_global fuel p index
    | some (.aliased (.instanceExport _ _)) =>
      .error "Core global cannot be aliased from component InstanceExport"
  termination_by structural fuel _ _ => fuel

/-- `Component::resolve_alias_export_core_instance`: trace a core-instance
export to `(module_idx, internal_index)`.  In the instantiated-module case
the export is looked up *by name* in the module export list, and the found
export kind (with `FuncExact` normalised to `Func`) is then verified
against the expected kind; a mismatch is a panic that prints both kinds.
In the `FromExports` case the matching export is found by name, its kind
compared (without normalisation), and the referenced item resolved in the
corresponding core index space. -/
def resolve_alias_export_core_instance : Nat → Component → Nat → String → ExternalKind → Except String (Nat × Nat)
  | 0, _, _, _, _ => .error "resolution fuel exhausted"
  | fuel + 1, c, instance_idx, name, expected_kind =>
    match resolve_core_instance fuel c instance_idx with
    | .error e => .error e
    | .ok (.instantiated module_idx _) =>
      match c.modules[module_idx]? with
      | none => .error "Module index out of bounds"
      | some (.defined m) =>
        match m.exports.find? (fun e => e.name == name) with
        | none => .error ("Export " ++ name ++ " not found in module")
        | some e =>
          let actual_kind := external_kind_normalize e.kind
          let normalized_expected := external_kind_normalize expected_kind
          if actual_kind ≠ normalized_expected then
            .error (kind_mismatch_msg name actual_kind expected_kind)
          else
            .ok (module_idx, e.index)
      | some (.imported _) =>
        .error "Cannot resolve core instance export through imported module"
      | some (.aliased _) =>
        .error "Module is aliased but should have been resolved"
    | .ok (.fromExports exports) =>
      match exports.find? (fun e => e.name == name) with
      | none => .error ("Export " ++ name ++ " not found in FromExports core instance")
      | some e =>
        if e.kind ≠ expected_kind then
          .error (kind_mismatch_msg name e.kind expected_kind)
        else
          match expected_kind with
          | .func | .funcExact =>
            match resolve_core_func fuel c e.index with
            | .ok (.fromModule mi fi) => .ok (mi, fi)
            | .ok _ => .error "FromExports can only export a module func"
            | .error er => .error er
          | .memory =>
            match resolve_core_memory fuel c e.index with
            | .ok r => .ok (r.module_idx, r.memory_idx)
            | .error er => .error er
          | .table =>
            match resolve_core_table fuel c e.index with
            | .ok r => .ok (r.module_idx, r.table_idx)
            | .error er => .error er
          | .global =>
            match resolve_core_global fuel c e.index with
            | .ok r => .ok (r.module_idx, r.global_idx)
            | .error er => .error er
          | .tag => .error "Tag resolution not yet implemented"
  termination_by structural fuel _ _ _ _ => fuel

end

/-! ### Canonical-section parsing (`parse.rs` `handle_canonical`) -/

/-- `wasmparser::CanonicalFunction`: the canonical-function kinds of the
canonical section.  `resourceNew` and `resourceRep` are representatives of
the kinds that fall into the catch-all arm of `handle_canonical`. -/
inductive CanonicalFunction where
  | lift (core_func_index : Nat) (type_index : Nat) (options : List CanonicalOption)
  | lower (func_index : Nat) (options : List CanonicalOption)
  | resourceNew (resource : Nat)
  | resourceDrop (resource : Nat)
  | resourceRep (resource : Nat)
deriving DecidableEq, Repr

/-- `parse.rs` `handle_canonical`: `Lift` appends to the component funcs
space, `Lower` appends to the core-funcs space, and every other canonical
function falls into the catch-all arm, which leaves the component
unchanged (the function has no error channel). -/
def handle_canonical : Component → CanonicalFunction → Component
  | .mk p i m co inst f v t ci cf cm ct cg cty e, .lift cfi ti opts =>
    .mk p i m co inst (f ++ [.lifted cfi ti opts]) v t ci cf cm ct cg cty e
  | .mk p i m co inst f v t ci cf cm ct cg cty e, .lower fi opts =>
    .mk p i m co inst f v t ci (cf ++ [.lowered fi opts]) cm ct cg cty e
  | c, _ => c

/-! ### Association-list model of Rust `HashMap` -/

/-- `HashMap::insert`: replace the binding of an existing key in place,
append a new binding otherwise. -/
def insert_key {κ α : Type} [BEq κ] : List (κ × α) → κ → α → List (κ × α)
  | [], k, v => [(k, v)]
  | (k0, v0) :: rest, k, v =>
    if k0 == k then (k0, v) :: rest else (k0, v0) :: insert_key rest k v

/-- `HashMap::remove`: take a binding out, returning the removed value and
the remaining map. -/
def remove_key {κ α : Type} [BEq κ] : List (κ × α) → κ → Option (α × List (κ × α))
  | [], _ => none
  | (k0, v0) :: rest, k =>
    if k0 == k then some (v0, rest)
    else (remove_key rest k).map (fun p => (p.1, (k0, v0) :: p.2))

/-- The key list of an association list (`HashMap::keys`). -/
def keys_of {κ α : Type} (l : List (κ × α)) : List κ := l.map Prod.fst

/-! ### Linking metadata (`decompose/linking.rs`) -/

/-- `Checksum`: the 32-byte SHA-256 of the input component, carried opaquely. -/
abbrev Checksum := List Nat

/-- `module_name_from_ids`: the deterministic rewritten module name. -/
def module_name_from_ids (module_id instance_id : Nat) : String :=
  "module" ++ toString module_id ++ "_instance" ++ toString instance_id

/-- `assumed_instance_id`: the unique instance mapped to a module in
`instance_map`; the single place encoding the one-instance-per-module
simplification (`unwrap` panics when no instance maps to the module). -/
def assumed_instance_id (instance_map : List (Nat × Nat)) (module_id : Nat) :
    Except String Nat :=
  match instance_map.find? (fun x => x.2 == module_id) with
  | some x => .ok x.1
  | none => .error "assumed_instance_id: no instance maps to the module"

/-- `ModuleInstanceExport`: a named export of a specific module instance. -/
structure ModuleInstanceExport where
  mid : Nat
  name : String
deriving DecidableEq, Repr

/-- `CanonicalOptionsIndex`: up to three optional instance exports. -/
structure CanonicalOptionsIndex where
  memory : Option ModuleInstanceExport
  realloc : Option ModuleInstanceExport
  post_return : Option ModuleInstanceExport
deriving DecidableEq, Repr

/-- `CanonicalOptionsIndex::default()`. -/
def CanonicalOptionsIndex.default : CanonicalOptionsIndex := ⟨none, none, none⟩

/-- `ImportKind`: the classification of a resolved import. -/
inductive ImportKind where
  | trueImport (opts : Option CanonicalOptionsIndex)
  | builtin
  | rename (package : Nat) (member : String)
deriving DecidableEq, Repr

/-- `InstantiationLinkingMetadata`: instantiate order plus the classified
map of imports (`ModuleImportIndex → ImportKind`). -/
structure InstantiationLinkingMetadata where
  instantiate_order : Nat
  imports : List (Nat × ImportKind)
deriving DecidableEq, Repr

/-- `ExportFuncMetadata`. -/
structure ExportFuncMetadata where
  name : String
  record_id : Nat
  opts : Option CanonicalOptionsIndex
deriving DecidableEq, Repr

/-- `ModuleMetadata`: the target module plus its import index map
(`module-name → member-name → ModuleImportIndex`). -/
structure ModuleMetadata where
  module : WasmModule
  import_map : List (String × List (String × Nat))
deriving DecidableEq, Repr

/-- `LinkingMetadata`. -/
structure LinkingMetadata where
  checksum : Checksum
  mm : List (Nat × ModuleMetadata)
  instance_map : List (Nat × Nat)
  instantiations : List (Nat × InstantiationLinkingMetadata)
  export_funcs : List (Nat × List ExportFuncMetadata)
deriving DecidableEq, Repr

/-! ### Export-name lookup and canonical options (`decompose/main.rs`) -/

/-- `ResolvedModule::defined()`.
Modelled from the spec: the accessor is only declared through its callers
in the source; per §4.4 the builder resolves a module "to its core-module
IR", so a resolved module that is not defined inline is a panic. -/
def ResolvedModule.defined_module : ResolvedModule → Except String WasmModule
  | .defined m => .ok m
  | .imported _ => .error "resolved module is not defined inline"

/-- `get_export_name_from_kind_idx`: find the export of the resolved
module whose kind is among `kinds` and whose index is `kind_idx`; its
absence is a panic. -/
def get_export_name_from_kind_idx (fuel : Nat) (c : Component)
    (module_idx : Nat) (kinds : List ExternalKind) (kind_idx : Nat) :
    Except String String :=
  match resolve_module fuel c module_idx with
  | .error e => .error e
  | .ok rm =>
    match rm.defined_module with
    | .error e => .error e
    | .ok link_module =>
      match link_module.exports.find? (fun e => kinds.contains e.kind && e.index == kind_idx) with
      | none => .error "Export should be found in module"
      | some e => .ok e.name

/-- The inner `func_resolve` of `CanonicalOptionsIndex::from_options`:
resolve a core func; it must be `FromModule`, anything else panics; the
export name in the originating module and that module's assumed instance
are attached. -/
def func_resolve (fuel : Nat) (c : Component) (func_idx : Nat)
    (instance_map : List (Nat × Nat)) : Except String ModuleInstanceExport :=
  match resolve_core_func fuel c func_idx with
  | .error e => .error e
  | .ok (.fromModule module_idx inner_func_idx) =>
    match get_export_name_from_kind_idx fuel c module_idx [.func, .funcExact] inner_func_idx with
    | .error e => .error e
    | .ok export_name =>
      match assumed_instance_id instance_map module_idx with
      | .error e => .error e
      | .ok mid => .ok ⟨mid, export_name⟩
  | .ok _ => .error "Canonical options core references can only come FromModule"

/-- The option loop of `CanonicalOptionsIndex::from_options`, threading
the accumulated `opts_ref`. -/
def from_options_loop (fuel : Nat) (c : Component)
    (instance_map : List (Nat × Nat)) (opts_ref : CanonicalOptionsIndex) :
    List CanonicalOption → Except String CanonicalOptionsIndex
  | [] => .ok opts_ref
  | opt :: rest =>
    match opt with
    | .realloc func_idx =>
      match func_resolve fuel c func_idx instance_map with
      | .error e => .error e
      | .ok v => from_options_loop fuel c instance_map { opts_ref with realloc := some v } rest
    | .postReturn func_idx =>
      match func_resolve fuel c func_idx instance_map with
      | .error e => .error e
      | .ok v => from_options_loop fuel c instance_map { opts_ref with post_return := some v } rest
    | .memory memory_idx =>
      match resolve_core_memory fuel c memory_idx with
      | .error e => .error e
      | .ok memory =>
        match assumed_instance_id instance_map memory.module_idx with
        | .error e => .error e
        | .ok mid =>
          match get_export_name_from_kind_idx fuel c memory.module_idx [.memory] memory.memory_idx with
          | .error e => .error e
          | .ok export_name =>
            from_options_loop fuel c instance_map
              { opts_ref with memory := some ⟨mid, export_name⟩ } rest
    | .utf8 => from_options_loop fuel c instance_map opts_ref rest
    | .utf16 => from_options_loop fuel c instance_map opts_ref rest
    | .compactUTF16 => .error "Canonical option variant not supported yet"

/-- `CanonicalOptionsIndex::from_options`: run the option loop on the
default index; the result is `none` exactly when the option vector is
empty (`(!options.is_empty()).then_some(opts_ref)`). -/
def CanonicalOptionsIndex.from_options (fuel : Nat) (c : Component)
    (options : List CanonicalOption) (instance_map : List (Nat × Nat)) :
    Except String (Option CanonicalOptionsIndex) :=
  match from_options_loop fuel c instance_map CanonicalOptionsIndex.default options with
  | .error e => .error e
  | .ok opts_ref => .ok (if options.isEmpty then none else some opts_ref)

/-! ### Node-level resolution (the `Resolve` trait applied to a node) -/

/-- `CoreInstanceNode::resolve`. -/
def resolve_core_instance_node (fuel : Nat) (c : Component) :
    CoreInstanceNode → Except String ResolvedCoreInstance
  | .instantiated mi args => .ok (.instantiated mi args)
  | .fromExports exports => .ok (.fromExports exports)
  | .aliased (.outer count index) =>
    match get_parent_component c count with
    | .error e => .error e
    | .ok p => resolve_core_instance fuel p index
  | .aliased (.instanceExport _ _) =>
    .error "Core instance cannot be aliased from component InstanceExport"
  | .aliased (.coreInstanceExport _ _) =>
    .error "Core instance cannot be aliased from CoreInstanceExport"

/-- `ComponentInstanceNode::resolve`. -/
def resolve_component_instance_node (fuel : Nat) (c : Component) :
    ComponentInstanceNode → Except String ResolvedComponentInstance
  | .instantiated ci args => .ok (.instantiated ci args)
  | .fromExports exports => .ok (.fromExports exports)
  | .imported i =>
    match get_resolved_import c i with
    | .error e => .error e
    | .ok ri => .ok (.imported ri)
  | .aliased (.instanceExport ii name) =>
    match resolve_alias_export_component_instance c ii name .inst with
    | .error e => .error e
    | .ok (.defined nested eidx) => resolve_component_instance fuel nested eidx
    | .ok .imported => .ok (.imported .indirect)
  | .aliased (.outer count index) =>
    match get_parent_component c count with
    | .error e => .error e
    | .ok p => resolve_component_instance fuel p index
  | .aliased (.coreInstanceExport _ _) =>
    .error "Component instance cannot be aliased from CoreInstanceExport"

/-- `ModuleNode::resolve`. -/
def resolve_module_node (fuel : Nat) (c : Component) :
    ModuleNode → Except String ResolvedModule
  | .defined m => .ok (.defined m)
  | .imported i =>
    match get_resolved_import c i with
    | .error e => .error e
    | .ok ri => .ok (.imported ri)
  | .aliased (.instanceExport ii name) =>
    match resolve_alias_export_component_instance c ii name .module with
    | .error e => .error e
    | .ok (.defined nested eidx) => resolve_module fuel nested eidx
    | .ok .imported => .ok (.imported .indirect)
  | .aliased (.outer count index) =>
    match get_parent_component c count with
    | .error e => .error e
    | .ok p => resolve_module fuel p index
  | .aliased (.coreInstanceExport _ _) =>
    .error "Module cannot be aliased from CoreInstanceExport"

/-! ### Assumption validation (`decompose/main.rs` `validate_assumptions`) -/

/-- The component-instance walk of `validate_assumptions`: every resolved
instance must be imported; anything else is an unsupported inline
instance. -/
def check_instances_loop (fuel : Nat) (c : Component) :
    List ComponentInstanceNode → Except String Unit
  | [] => .ok ()
  | node :: rest =>
    match resolve_component_instance_node fuel c node with
    | .error e => .error e
    | .ok (.imported _) => check_instances_loop fuel c rest
    | .ok _ => .error "Main, inline component instances are not supported yet"

/-- The module walk of `validate_assumptions`: a module that resolves to
an import is unsupported. -/
def check_modules_loop (fuel : Nat) (c : Component) :
    List ModuleNode → Except String Unit
  | [] => .ok ()
  | node :: rest =>
    match resolve_module_node fuel c node with
    | .error e => .error e
    | .ok (.imported _) => .error "Imported modules are not supported yet"
    | .ok _ => check_modules_loop fuel c rest

/-- `validate_assumptions`: nested components, inline component instances
and imported modules abort before any linking or rewriting happens. -/
def validate_assumptions (fuel : Nat) (c : Component) : Except String Unit :=
  if c.components.isEmpty = false then
    .error "Nested components are not supported yet"
  else
    match check_instances_loop fuel c c.instances with
    | .error e => .error e
    | .ok _ => check_modules_loop fuel c c.modules

/-! ### The linking-metadata builder (`decompose/main.rs`) -/

/-- The `gather_instance_map` loop: record
`ModuleInstanceID(i) → ModuleID(module_idx)` for every core instance that
resolves to `Instantiated`. -/
def instance_map_loop (fuel : Nat) (c : Component) :
    List (Nat × CoreInstanceNode) → List (Nat × Nat) → Except String (List (Nat × Nat))
  | [], acc => .ok acc
  | (idx, node) :: rest, acc =>
    match resolve_core_instance_node fuel c node with
    | .error e => .error e
    | .ok (.instantiated module_idx _) =>
      instance_map_loop fuel c rest (insert_key acc idx module_idx)
    | .ok _ => instance_map_loop fuel c rest acc

/-- `gather_instance_map`. -/
def gather_instance_map (fuel : Nat) (c : Component) : Except String (List (Nat × Nat)) :=
  instance_map_loop fuel c c.core_instances.enum []

/-- The export walk of `gather_instance_link`, threading the classified
entries and the still-unmatched member imports. -/
def gather_link_loop (fuel : Nat) (c : Component) (instance_map : List (Nat × Nat)) :
    List (Nat × ImportKind) → List (String × Nat) → List CoreExport →
    Except String (List (Nat × ImportKind) × List (String × Nat))
  | link_imports, member_imports, [] => .ok (link_imports, member_imports)
  | link_imports, member_imports, e :: rest =>
    match remove_key member_imports e.name with
    | none => .error "export should be matched by an import"
    | some (core_import_idx, member_rest) =>
      match e.kind with
      | .func =>
        match resolve_core_func fuel c e.index with
        | .error er => .error er
        | .ok (.lowered func_idx options) =>
          match resolve_component_func fuel c func_idx with
          | .error er => .error er
          | .ok (.imported _) =>
            match CanonicalOptionsIndex.from_options fuel c options instance_map with
            | .error er => .error er
            | .ok opts =>
              gather_link_loop fuel c instance_map
                (insert_key link_imports core_import_idx (.trueImport opts)) member_rest rest
          | .ok (.lifted _ _ _) =>
            .error "Lowered CoreFunc should not come from lifted ComponentFunc"
        | .ok (.fromModule module_idx func_idx) =>
          match get_export_name_from_kind_idx fuel c module_idx [.func, .funcExact] func_idx with
          | .error er => .error er
          | .ok export_name =>
            match assumed_instance_id instance_map module_idx with
            | .error er => .error er
            | .ok package =>
              gather_link_loop fuel c instance_map
                (insert_key link_imports core_import_idx (.rename package export_name)) member_rest rest
        | .ok (.resourceDrop _) =>
          gather_link_loop fuel c instance_map
            (insert_key link_imports core_import_idx .builtin) member_rest rest
      | .table =>
        match resolve_core_table fuel c e.index with
        | .error er => .error er
        | .ok table =>
          match get_export_name_from_kind_idx fuel c table.module_idx [.table] table.table_idx with
          | .error er => .error er
          | .ok export_name =>
            match assumed_instance_id instance_map table.module_idx with
            | .error er => .error er
            | .ok package =>
              gather_link_loop fuel c instance_map
                (insert_key link_imports core_import_idx (.rename package export_name)) member_rest rest
      | .memory =>
        match resolve_core_memory fuel c e.index with
        | .error er => .error er
        | .ok memory =>
          match get_export_name_from_kind_idx fuel c memory.module_idx [.memory] memory.memory_idx with
          | .error er => .error er
          | .ok export_name =>
            match assumed_instance_id instance_map memory.module_idx with
            | .error er => .error er
            | .ok package =>
              gather_link_loop fuel c instance_map
                (insert_key link_imports core_import_idx (.rename package export_name)) member_rest rest
      | _ => .error "Linking of this export kind is not supported yet"

/-- `gather_instance_link`: walk the provided exports, then assert that no
member imports are left unmatched. -/
def gather_instance_link (fuel : Nat) (c : Component)
    (link_imports : List (Nat × ImportKind)) (member_imports : List (String × Nat))
    (instance_exports : List CoreExport) (instance_map : List (Nat × Nat)) :
    Except String (List (Nat × ImportKind)) :=
  match gather_link_loop fuel c instance_map link_imports member_imports instance_exports with
  | .error e => .error e
  | .ok (link_imports2, member_rest) =>
    if member_rest.isEmpty then .ok link_imports2
    else .error "All imports should be matched by exports"

/-- The `import_map` construction of `linking_metadata`:
`entry(module).or_default()` then `members.insert(name, i)`. -/
def import_map_insert (m : List (String × List (String × Nat)))
    (module name : String) (i : Nat) : List (String × List (String × Nat)) :=
  match List.lookup module m with
  | some members => insert_key m module (insert_key members name i)
  | none => m ++ [(module, [(name, i)])]

/-- Walk a module's ordered import list, building the import index map. -/
def build_import_map_loop (i : Nat) (acc : List (String × List (String × Nat))) :
    List WasmImport → List (String × List (String × Nat))
  | [] => acc
  | imp :: rest => build_import_map_loop (i + 1) (import_map_insert acc imp.module imp.name i) rest

/-- The import index map of a module. -/
def build_import_map (imports : List WasmImport) : List (String × List (String × Nat)) :=
  build_import_map_loop 0 [] imports

/-- The per-arg loop of `linking_metadata`: each arg must be an instance
arg, its exports must come from an already-seen `FromExports` instance,
and its name must remove a pending module-name bundle from the
expected imports. -/
def link_args (fuel : Nat) (c : Component)
    (synthetic : List (Nat × List CoreExport)) (instance_map : List (Nat × Nat)) :
    List (String × List (String × Nat)) → List (Nat × ImportKind) →
    List CoreInstantiationArg → Except String (List (Nat × ImportKind))
  | _, acc, [] => .ok acc
  | expected, acc, arg :: rest =>
    match arg.kind with
    | .inst =>
      match List.lookup arg.index synthetic with
      | none => .error "exported core instance should be already populated"
      | some instance_exports =>
        match remove_key expected arg.name with
        | none => .error "import should be populated"
        | some (member_imports, expected_rest) =>
          match gather_instance_link fuel c acc member_imports instance_exports instance_map with
          | .error e => .error e
          | .ok acc2 => link_args fuel c synthetic instance_map expected_rest acc2 rest

/-- Processing of a single `Instantiated` core instance inside
`linking_metadata`: materialise (or reuse) the module metadata, assert one
arg bundle per imported module-name, then link all args. -/
def process_instantiated (fuel : Nat) (c : Component)
    (synthetic : List (Nat × List CoreExport)) (instance_map : List (Nat × Nat))
    (mm : List (Nat × ModuleMetadata)) (instance_idx module_idx : Nat)
    (args : List CoreInstantiationArg) :
    Except String (List (Nat × ModuleMetadata) × InstantiationLinkingMetadata) :=
  let compute : Except String (ModuleMetadata × List (Nat × ModuleMetadata)) :=
    match List.lookup module_idx mm with
    | some md => .ok (md, mm)
    | none =>
      match resolve_module fuel c module_idx with
      | .error e => .error e
      | .ok rm =>
        match rm.defined_module with
        | .error e => .error e
        | .ok module =>
          let md : ModuleMetadata := ⟨module, build_import_map module.imports⟩
          .ok (md, insert_key mm module_idx md)
  match compute with
  | .error e => .error e
  | .ok (md, mm2) =>
    let expected := md.import_map
    if args.length ≠ expected.length then
      .error "assertion failed: args.len() == expected_imports.len()"
    else
      match link_args fuel c synthetic instance_map expected [] args with
      | .error e => .error e
      | .ok imports => .ok (mm2, ⟨instance_idx, imports⟩)

/-- The core-instance walk of `linking_metadata`: aliased core instances
abort, `FromExports` instances are stashed as synthetic export bundles,
and `Instantiated` instances are processed into `instantiations`. -/
def linking_loop (fuel : Nat) (c : Component) (instance_map : List (Nat × Nat)) :
    List (Nat × CoreInstanceNode) → List (Nat × List CoreExport) →
    List (Nat × ModuleMetadata) → List (Nat × InstantiationLinkingMetadata) →
    Except String (List (Nat × ModuleMetadata) × List (Nat × InstantiationLinkingMetadata))
  | [], _, mm, instantiations => .ok (mm, instantiations)
  | (instance_idx, node) :: rest, synthetic, mm, instantiations =>
    match node with
    | .aliased _ => .error "Aliased core instance is not supported yet"
    | _ =>
      match resolve_core_instance_node fuel c node with
      | .error e => .error e
      | .ok (.fromExports exports) =>
        linking_loop fuel c instance_map rest
          (insert_key synthetic instance_idx exports) mm instantiations
      | .ok (.instantiated module_idx args) =>
        match process_instantiated fuel c synthetic instance_map mm instance_idx module_idx args with
        | .error e => .error e
        | .ok (mm2, imd) =>
          linking_loop fuel c instance_map rest synthetic mm2
            (insert_key instantiations instance_idx imd)

/-- The component-export walk of `gather_component_exports`: append the
export-func record under the module's assumed instance. -/
def push_export_func (acc : List (Nat × List ExportFuncMetadata)) (mid : Nat)
    (efm : ExportFuncMetadata) : List (Nat × List ExportFuncMetadata) :=
  match List.lookup mid acc with
  | some l => insert_key acc mid (l ++ [efm])
  | none => acc ++ [(mid, [efm])]

/-- `gather_component_exports`: iterate component exports in insertion
order with a 0-based record id; only lifted function exports sourced from
a module are supported, other export kinds are skipped with a warning. -/
def component_exports_loop (fuel : Nat) (c : Component) (instance_map : List (Nat × Nat)) :
    List (Nat × (String × ExportNode)) → List (Nat × List ExportFuncMetadata) →
    Except String (List (Nat × List ExportFuncMetadata))
  | [], acc => .ok acc
  | (export_id, (_, exp)) :: rest, acc =>
    match exp.kind with
    | .func =>
      match resolve_component_func fuel c exp.index with
      | .error e => .error e
      | .ok (.imported _) => .error "Export of imported component functions is not supported yet"
      | .ok (.lifted core_func_idx _ options) =>
        match resolve_core_func fuel c core_func_idx with
        | .error e => .error e
        | .ok (.fromModule module_idx func_idx) =>
          match assumed_instance_id instance_map module_idx with
          | .error e => .error e
          | .ok mid =>
            match get_export_name_from_kind_idx fuel c module_idx [.func, .funcExact] func_idx with
            | .error e => .error e
            | .ok name =>
              match CanonicalOptionsIndex.from_options fuel c options instance_map with
              | .error e => .error e
              | .ok opts =>
                component_exports_loop fuel c instance_map rest
                  (push_export_func acc mid ⟨name, export_id, opts⟩)
        | .ok _ => .error "Lifted ComponentFunc sourced from non-FromModule CoreFuncs is not supported yet"
    | _ => component_exports_loop fuel c instance_map rest acc

/-- `linking_metadata`: instance map, per-instantiation linking, component
exports. -/
def linking_metadata (fuel : Nat) (c : Component) (checksum : Checksum) :
    Except String LinkingMetadata :=
  match gather_instance_map fuel c with
  | .error e => .error e
  | .ok instance_map =>
    match linking_loop fuel c instance_map c.core_instances.enum [] [] [] with
    | .error e => .error e
    | .ok (mm, instantiations) =>
      match component_exports_loop fuel c instance_map c.exports.enum [] with
      | .error e => .error e
      | .ok export_funcs =>
        .ok ⟨checksum, mm, instance_map, instantiations, export_funcs⟩

/-! ### The rewriter and custom-section serialiser (`decompose/linking.rs`) -/

/-- `ImportAdapterCrimpData`: a canonical-lower adapter record of the
custom section. -/
structure ImportAdapterCrimpData where
  target : Nat
  memory : Option ModuleInstanceExport
  realloc : Option ModuleInstanceExport
deriving DecidableEq, Repr

/-- `CrimpSectionData`: the logical content of the `crimp-replay` custom
section.  `postcard` serialisation of this record is a deterministic,
injective function of it, so distinct records give distinct section
bytes. -/
structure CrimpSectionData where
  checksum : Checksum
  instance_id : Nat
  instantiate_order : Nat
  import_adapters : List ImportAdapterCrimpData
  exports : List ExportFuncMetadata
deriving DecidableEq, Repr

/-- `wirm::ModuleImports::set_import_name`.
Modelled from the spec: the Core-Module IR is an external collaborator
whose import list is addressable by a stable id (§2); this rewrites the
`(module, name)` pair of the import at position `idx`. -/
def set_import_name (m : WasmModule) (module name : String) (idx : Nat) : WasmModule :=
  { m with imports := m.imports.set idx ⟨module, name⟩ }

/-- The import-rewriting loop of `serialize_crimp_section`, walking the
entries of the instantiation's `imports` `HashMap` in iteration order:
mark the slot populated (an out-of-range id is a panic), rewrite
the import according to its classification with a shared builtin/stub
counter, and collect adapter records for true imports with canonical
options (whose `post_return` must be absent). -/
def rewrite_imports (lm : LinkingMetadata) :
    WasmModule → List Bool → Nat → List ImportAdapterCrimpData →
    List (Nat × ImportKind) →
    Except String (WasmModule × List Bool × Nat × List ImportAdapterCrimpData)
  | module, populated, counter, adapters, [] => .ok (module, populated, counter, adapters)
  | module, populated, counter, adapters, (idx, kind) :: rest =>
    if idx < populated.length then
      let populated2 := populated.set idx true
      match kind with
      | .builtin =>
        rewrite_imports lm
          (set_import_name module "crimp-replay" ("builtin" ++ toString counter) idx)
          populated2 (counter + 1) adapters rest
      | .trueImport opts =>
        let module2 := set_import_name module "crimp-replay" ("stub" ++ toString counter) idx
        match opts with
        | none => rewrite_imports lm module2 populated2 (counter + 1) adapters rest
        | some o =>
          if o.post_return.isSome then
            .error "Post return should never be present for module imports"
          else
            rewrite_imports lm module2 populated2 (counter + 1)
              (adapters ++ [⟨idx, o.memory, o.realloc⟩]) rest
      | .rename package member =>
        match List.lookup package lm.instance_map with
        | none => .error "instance_map: missing package instance"
        | some pm =>
          rewrite_imports lm
            (set_import_name module (module_name_from_ids pm package) member idx)
            populated2 counter adapters rest
    else .error "index out of bounds: populated"

/-- `LinkingMetadata::serialize_crimp_section` for one instance.  `order`
is the iteration order of the instantiation's `imports` `HashMap`, which
Rust leaves unspecified and which varies between processes; the function
is only ever called with some permutation of that map's entries.
Missing map lookups are panics.  After rewriting, every import slot must
have been populated. -/
def serialize_crimp_section (lm : LinkingMetadata) (instance_id : Nat)
    (order : List (Nat × ImportKind)) :
    Except String (WasmModule × CrimpSectionData) :=
  match List.lookup instance_id lm.instance_map with
  | none => .error "instance_map: missing instance"
  | some module_id =>
    match List.lookup module_id lm.mm with
    | none => .error "mm: missing module metadata"
    | some md =>
      let module0 : WasmModule :=
        { md.module with module_name := some (module_name_from_ids module_id instance_id) }
      match List.lookup instance_id lm.instantiations with
      | none => .error "instantiations: missing instance"
      | some imd =>
        match rewrite_imports lm module0 (List.replicate module0.imports.length false) 0 [] order with
        | .error e => .error e
        | .ok (module, populated, _, import_adapters) =>
          if populated.all (fun b => b) then
            .ok (module,
              { checksum := lm.checksum
                instance_id := instance_id
                instantiate_order := imd.instantiate_order
                import_adapters := import_adapters
                exports := (List.lookup instance_id lm.export_funcs).getD [] })
          else .error "Not all imports were populated"

/-! ### `ComponentDecomposed` and the orchestrator (`decompose/main.rs`) -/

/-- The sanity checks at the head of
`ComponentDecomposed::from_linking_metadata`: the `HashSet` of `mm` keys
must equal the `HashSet` of module ids reached from `instantiations`
through `instance_map` (sets compare extensionally, so duplicates
collapse), and the `export_funcs` keys must be a subset of the
`instantiations` keys. -/
def from_linking_metadata_checks (lm : LinkingMetadata) : Except String Unit :=
  match lm.instantiations.mapM (fun x =>
      match List.lookup x.1 lm.instance_map with
      | some m => Except.ok m
      | none => Except.error "instance_map: missing instance") with
  | .error e => .error e
  | .ok l2 =>
    let l1 := keys_of lm.mm
    if (l1.all (fun m => l2.contains m) && l2.all (fun m => l1.contains m)) = false then
      .error "Each module should be instantiated exactly once for now"
    else if ((keys_of lm.export_funcs).all (fun k => (keys_of lm.instantiations).contains k)) = false then
      .error "Exported functions should only come from instantiated modules"
    else .ok ()

/-- `ComponentDecomposed::from_linking_metadata`: run the sanity checks,
then serialise one rewritten module (with its `crimp-replay` payload) per
instantiation.  The model iterates `instantiations` and each `imports`
map in association-list order, one of the iteration orders the Rust
`HashMap`s can exhibit. -/
def from_linking_metadata (lm : LinkingMetadata) :
    Except String (List (WasmModule × CrimpSectionData)) :=
  match from_linking_metadata_checks lm with
  | .error e => .error e
  | .ok _ => lm.instantiations.mapM (fun x => serialize_crimp_section lm x.1 x.2.imports)

/-- `ComponentDecomposed::from_component`: assumption validation, linking
metadata, rewriting, then re-validation of every output by the external
validator. -/
def from_component (fuel : Nat) (validator : WasmModule → Except String Unit)
    (c : Component) (checksum : Checksum) :
    Except String (List (WasmModule × CrimpSectionData)) :=
  match validate_assumptions fuel c with
  | .error e => .error e
  | .ok _ =>
    match linking_metadata fuel c checksum with
    | .error e => .error e
    | .ok lm =>
      match from_linking_metadata lm with
      | .error e => .error e
      | .ok mods =>
        match mods.mapM (fun x => validator x.1) with
        | .error e => .error e
        | .ok _ => .ok mods

/-- The observable outcome of a run of the `decompose` binary: whether the
output directory was prepared, which files were written (name, module,
custom-section payload), and whether the run exited successfully. -/
structure RunOutcome where
  outdir_prepared : Bool
  files_written : List (String × WasmModule × CrimpSectionData)
  exit_ok : Bool
deriving DecidableEq, Repr

/-- `dump_to_files`: modules are written one by one; a missing module
name is a panic that stops the loop (files already written stay). -/
def dump_loop : List (WasmModule × CrimpSectionData) →
    List (String × WasmModule × CrimpSectionData) →
    List (String × WasmModule × CrimpSectionData) × Bool
  | [], acc => (acc, true)
  | (m, d) :: rest, acc =>
    match m.module_name with
    | none => (acc, false)
    | some n => dump_loop rest (acc ++ [(n, m, d)])

/-- `main`: the input has already been read, validated and parsed into
`c`; the output directory is prepared fresh, then the component is
decomposed and the results are dumped.  Any error after preparation
leaves the prepared directory empty. -/
def main_run (fuel : Nat) (validator : WasmModule → Except String Unit)
    (c : Component) (checksum : Checksum) : RunOutcome :=
  match from_component fuel validator c checksum with
  | .error _ => ⟨true, [], false⟩
  | .ok mods =>
    let dumped := dump_loop mods []
    ⟨true, dumped.1, dumped.2⟩

/-! ### Decidability of result comparisons -/

instance {ε α : Type} [DecidableEq ε] [DecidableEq α] : DecidableEq (Except ε α) :=
  fun a b =>
    match a, b with
    | .ok x, .ok y =>
      if h : x = y then .isTrue (by rw [h])
      else .isFalse (by intro hc; cases hc; exact h rfl)
    | .error x, .error y =>
      if h : x = y then .isTrue (by rw [h])
      else .isFalse (by intro hc; cases hc; exact h rfl)
    | .ok _, .error _ => .isFalse (by intro hc; cases hc)
    | .error _, .ok _ => .isFalse (by intro hc; cases hc)

/-! ### Concrete components used as witnesses -/

/-- A component with all spaces empty. -/
def empty_component : Component := .mk [] [] [] [] [] [] [] [] [] [] [] [] [] [] []

/-- For claim C9: a parent component holding one core func. -/
def c9_parent : Component :=
  .mk [] [] [] [] [] [] [] [] [] [CoreFuncNode.lowered 5 []] [] [] [] [] []

/-- For claim C9: a child whose single core func is an outer alias into
the parent. -/
def c9_child : Component :=
  .mk [ParentScope.component (some c9_parent)] [] [] [] [] [] [] []
    [] [CoreFuncNode.aliased (.outer 1 0)] [] [] [] [] []

/-- For claim C5: a module exporting a memory and a function. -/
def c5_module : WasmModule :=
  ⟨[], [⟨"mem", .memory, 0⟩, ⟨"re", .func, 3⟩], none⟩

/-- For claim C5: a component with one instantiated module, a core memory
aliased from its instance, and two core funcs (one from the module, one
lowered). -/
def c5_component : Component :=
  .mk [] [] [ModuleNode.defined c5_module] [] [] [] [] []
    [CoreInstanceNode.instantiated 0 []]
    [CoreFuncNode.aliased (.coreInstanceExport 0 "re"), CoreFuncNode.lowered 0 []]
    [CoreMemoryNode.aliased (.coreInstanceExport 0 "mem")] [] [] [] []

/-! ### Claim C7 — canonical-section parsing -/

/-- Claim C7: during canonical-section parsing, `Lift` appends a node to
the component funcs space and `Lower` appends a node to the core funcs
space; however, contrary to the claim, `ResourceDrop` and every other
canonical-function kind leave the component *unchanged*: no node is
appended and no unsupported error is produced (the function has no error
channel), so they are silently ignored. -/
theorem c7_handle_canonical_evaluation :
    ∀ (c : Component) (cfi ti fi r : Nat) (opts : List CanonicalOption),
      (handle_canonical c (.lift cfi ti opts)).funcs = c.funcs ++ [.lifted cfi ti opts] ∧
      (handle_canonical c (.lift cfi ti opts)).core_funcs = c.core_funcs ∧
      (handle_canonical c (.lower fi opts)).core_funcs = c.core_funcs ++ [.lowered fi opts] ∧
      (handle_canonical c (.lower fi opts)).funcs = c.funcs ∧
      handle_canonical c (.resourceDrop r) = c ∧
      handle_canonical c (.resourceNew r) = c ∧
      handle_canonical c (.resourceRep r) = c := by
  intro c cfi ti fi r opts
  cases c
  exact ⟨rfl, rfl, rfl, rfl, rfl, rfl, rfl⟩

/-! ### Claim C9 — outer-alias resolution -/

/-- Claim C9: resolving an `Outer{count, index}` alias walks `count`
parents up the chain (indexing the flattened parent chain at
`count - 1`) and then resolves `index` in that parent's matching index
space; `count = 0` is rejected rather than referring to the current
scope, and a `count` exceeding the number of available parents is
rejected. -/
theorem c9_outer_alias_walk :
    (∀ c : Component,
      get_parent_component c 0 =
        .error "Outer alias count=0 is invalid (refers to current scope)") ∧
    (∀ (c : Component) (count : Nat), c.parents.length < count →
      get_parent_component c count =
        .error "Outer alias count exceeds the available parents") ∧
    (∀ (c p : Component) (count : Nat), count ≠ 0 →
      c.parents[count - 1]? = some (.component (some p)) →
      get_parent_component c count = .ok p) ∧
    (∀ (fuel count index i : Nat) (c p : Component),
      c.core_funcs[i]? = some (.aliased (.outer count index)) →
      get_parent_component c count = .ok p →
      resolve_core_func (fuel + 1) c i = resolve_core_func fuel p index) := by
  refine ⟨fun c => rfl, ?_, ?_, ?_⟩
  · intro c count h
    have hne : count ≠ 0 := by omega
    have hnone : c.parents[count - 1]? = none := by
      apply List.getElem?_eq_none
      omega
    simp [get_parent_component, hne, hnone]
  · intro c p count hne hsome
    simp [get_parent_component, hne, hsome]
  · intro fuel count index i c p hnode hparent
    simp [resolve_core_func, hnode, hparent]

/-- Witness for C9 at a concrete two-component chain. -/
theorem c9_outer_alias_walk_witness :
    get_parent_component c9_child 0 =
      .error "Outer alias count=0 is invalid (refers to current scope)" ∧
    get_parent_component c9_child 2 =
      .error "Outer alias count exceeds the available parents" ∧
    get_parent_component c9_child 1 = .ok c9_parent ∧
    resolve_core_func 2 c9_child 0 = resolve_core_func 1 c9_parent 0 := by
  obtain ⟨h0, hover, hok, hstep⟩ := c9_outer_alias_walk
  have hpar : get_parent_component c9_child 1 = .ok c9_parent :=
    hok c9_child c9_parent 1 (by decide) rfl
  exact ⟨h0 c9_child, hover c9_child 2 (by decide), hpar,
    hstep 1 1 0 0 c9_child c9_parent rfl hpar⟩

/-! ### Claims C5 / C10 — canonical-options indexing -/

/-- UTF-8 / UTF-16 options leave the accumulated options index
unchanged. -/
theorem from_options_loop_utf_only (fuel : Nat) (c : Component)
    (imap : List (Nat × Nat)) (opts_ref : CanonicalOptionsIndex) :
    ∀ options : List CanonicalOption,
      (∀ o ∈ options, o = CanonicalOption.utf8 ∨ o = CanonicalOption.utf16) →
      from_options_loop fuel c imap opts_ref options = .ok opts_ref := by
  intro options h
  induction options with
  | nil => rfl
  | cons o rest ih =>
    have hrest : ∀ o ∈ rest, o = CanonicalOption.utf8 ∨ o = CanonicalOption.utf16 :=
      fun x hx => h x (List.mem_cons_of_mem _ hx)
    rcases h o (List.mem_cons_self o rest) with h1 | h1 <;> subst h1 <;>
      simpa [from_options_loop] using ih hrest

/-- Claim C10: a non-empty option vector containing only UTF8/UTF16
options yields `Some` of an options index whose `memory`, `realloc` and
`post_return` fields are all `None` — not `None` overall, even though no
option contributed an entry. -/
theorem c10_nonempty_utf_options_give_some :
    ∀ (fuel : Nat) (c : Component) (imap : List (Nat × Nat))
      (options : List CanonicalOption),
      options ≠ [] →
      (∀ o ∈ options, o = CanonicalOption.utf8 ∨ o = CanonicalOption.utf16) →
      CanonicalOptionsIndex.from_options fuel c options imap =
        .ok (some ⟨none, none, none⟩) := by
  intro fuel c imap options hne hall
  unfold CanonicalOptionsIndex.from_options
  rw [from_options_loop_utf_only fuel c imap _ options hall]
  cases options with
  | nil => exact absurd rfl hne
  | cons o rest => rfl

/-- Witness for C10 at the concrete vector `[utf8, utf16]`. -/
theorem c10_nonempty_utf_options_give_some_witness :
    CanonicalOptionsIndex.from_options 0 empty_component
      [CanonicalOption.utf8, CanonicalOption.utf16] [] =
      .ok (some ⟨none, none, none⟩) :=
  c10_nonempty_utf_options_give_some 0 empty_component []
    [CanonicalOption.utf8, CanonicalOption.utf16] (by decide) (by decide)

/-- Claim C5: `from_options` returns `None` exactly when the option vector
is empty; a `memory(idx)` option is resolved through the core-memories
space and recorded as the originating module's memory-export name paired
with that module's assumed instance; `realloc(idx)` and `post-return(idx)`
must resolve to `FromModule` core funcs (a lowered or resource-drop core
func aborts); `utf8`/`utf16` produce no entry; any other option aborts. -/
theorem c5_from_options_behaviour :
    (∀ (fuel : Nat) (c : Component) (imap : List (Nat × Nat)),
      CanonicalOptionsIndex.from_options fuel c [] imap = .ok none) ∧
    (∀ (fuel : Nat) (c : Component) (imap : List (Nat × Nat))
       (options : List CanonicalOption) (r : Option CanonicalOptionsIndex),
      CanonicalOptionsIndex.from_options fuel c options imap = .ok r →
      (r = none ↔ options = [])) ∧
    (∀ (fuel : Nat) (c : Component) (imap : List (Nat × Nat)) (idx m mi inst : Nat)
       (nm : String),
      resolve_core_memory fuel c idx = .ok ⟨m, mi⟩ →
      assumed_instance_id imap m = .ok inst →
      get_export_name_from_kind_idx fuel c m [.memory] mi = .ok nm →
      CanonicalOptionsIndex.from_options fuel c [.memory idx] imap =
        .ok (some ⟨some ⟨inst, nm⟩, none, none⟩)) ∧
    (∀ (fuel : Nat) (c : Component) (imap : List (Nat × Nat)) (idx fi : Nat)
       (opts2 : List CanonicalOption),
      resolve_core_func fuel c idx = .ok (.lowered fi opts2) →
      CanonicalOptionsIndex.from_options fuel c [.realloc idx] imap =
          .error "Canonical options core references can only come FromModule" ∧
      CanonicalOptionsIndex.from_options fuel c [.postReturn idx] imap =
          .error "Canonical options core references can only come FromModule") ∧
    (∀ (fuel : Nat) (c : Component) (imap : List (Nat × Nat)) (idx r : Nat),
      resolve_core_func fuel c idx = .ok (.resourceDrop r) →
      CanonicalOptionsIndex.from_options fuel c [.realloc idx] imap =
          .error "Canonical options core references can only come FromModule" ∧
      CanonicalOptionsIndex.from_options fuel c [.postReturn idx] imap =
          .error "Canonical options core references can only come FromModule") ∧
    (∀ (fuel : Nat) (c : Component) (imap : List (Nat × Nat)) (idx m fi inst : Nat)
       (nm : String),
      resolve_core_func fuel c idx = .ok (.fromModule m fi) →
      get_export_name_from_kind_idx fuel c m [.func, .funcExact] fi = .ok nm →
      assumed_instance_id imap m = .ok inst →
      CanonicalOptionsIndex.from_options fuel c [.realloc idx] imap =
          .ok (some ⟨none, some ⟨inst, nm⟩, none⟩) ∧
      CanonicalOptionsIndex.from_options fuel c [.postReturn idx] imap =
          .ok (some ⟨none, none, some ⟨inst, nm⟩⟩)) ∧
    (∀ (fuel : Nat) (c : Component) (imap : List (Nat × Nat)),
      CanonicalOptionsIndex.from_options fuel c [.utf8] imap =
          .ok (some ⟨none, none, none⟩) ∧
      CanonicalOptionsIndex.from_options fuel c [.utf16] imap =
          .ok (some ⟨none, none, none⟩)) ∧
    (∀ (fuel : Nat) (c : Component) (imap : List (Nat × Nat))
       (rest : List CanonicalOption),
      CanonicalOptionsIndex.from_options fuel c (.compactUTF16 :: rest) imap =
          .error "Canonical option variant not supported yet") := by
  refine ⟨fun fuel c imap => rfl, ?_, ?_, ?_, ?_, ?_, ?_, ?_⟩
  · intro fuel c imap options r h
    unfold CanonicalOptionsIndex.from_options at h
    cases hloop : from_options_loop fuel c imap CanonicalOptionsIndex.default options with
    | error e => rw [hloop] at h; cases h
    | ok v =>
      rw [hloop] at h
      cases options with
      | nil => simp at h; simp [← h]
      | cons o rest => simp at h; simp [← h]
  · intro fuel c imap idx m mi inst nm hmem hinst hname
    unfold CanonicalOptionsIndex.from_options
    simp [from_options_loop, hmem, hinst, hname, CanonicalOptionsIndex.default]
  · intro fuel c imap idx fi opts2 hlow
    constructor <;>
      · unfold CanonicalOptionsIndex.from_options
        simp [from_options_loop, func_resolve, hlow]
  · intro fuel c imap idx r hdrop
    constructor <;>
      · unfold CanonicalOptionsIndex.from_options
        simp [from_options_loop, func_resolve, hdrop]
  · intro fuel c imap idx m fi inst nm hfm hname hinst
    constructor <;>
      · unfold CanonicalOptionsIndex.from_options
        simp [from_options_loop, func_resolve, hfm, hname, hinst, CanonicalOptionsIndex.default]
  · intro fuel c imap
    exact ⟨rfl, rfl⟩
  · intro fuel c imap rest
    rfl

/-- Witness for C5 at a concrete component: memory, realloc, post-return,
empty, UTF-8 and unsupported options each evaluated. -/
theorem c5_from_options_behaviour_witness :
    CanonicalOptionsIndex.from_options 5 c5_component [] [(0, 0)] = .ok none ∧
    CanonicalOptionsIndex.from_options 5 c5_component [.memory 0] [(0, 0)] =
      .ok (some ⟨some ⟨0, "mem"⟩, none, none⟩) ∧
    CanonicalOptionsIndex.from_options 5 c5_component [.realloc 1] [(0, 0)] =
      .error "Canonical options core references can only come FromModule" ∧
    CanonicalOptionsIndex.from_options 5 c5_component [.realloc 0] [(0, 0)] =
      .ok (some ⟨none, some ⟨0, "re"⟩, none⟩) ∧
    CanonicalOptionsIndex.from_options 5 c5_component [.postReturn 0] [(0, 0)] =
      .ok (some ⟨none, none, some ⟨0, "re"⟩⟩) ∧
    CanonicalOptionsIndex.from_options 5 c5_component [.utf8] [(0, 0)] =
      .ok (some ⟨none, none, none⟩) ∧
    CanonicalOptionsIndex.from_options 5 c5_component [.compactUTF16] [(0, 0)] =
      .error "Canonical option variant not supported yet" ∧
    ((some (⟨none, none, none⟩ : CanonicalOptionsIndex) = none) ↔
      ([CanonicalOption.utf8] = ([] : List CanonicalOption))) := by
  obtain ⟨h1, h2, h3, h4, h5, h6, h7, h8⟩ := c5_from_options_behaviour
  refine ⟨h1 5 c5_component [(0, 0)], ?_, ?_, ?_, ?_, ?_, ?_, ?_⟩
  · exact h3 5 c5_component [(0, 0)] 0 0 0 0 "mem" (by decide) (by decide) (by decide)
  · exact (h4 5 c5_component [(0, 0)] 1 0 [] (by decide)).1
  · exact (h6 5 c5_component [(0, 0)] 0 0 3 0 "re" (by decide) (by decide) (by decide)).1
  · exact (h6 5 c5_component [(0, 0)] 0 0 3 0 "re" (by decide) (by decide) (by decide)).2
  · exact (h7 5 c5_component [(0, 0)]).1
  · exact h8 5 c5_component [(0, 0)] []
  · exact h2 5 c5_component [(0, 0)] [.utf8] (some ⟨none, none, none⟩)
      (h7 5 c5_component [(0, 0)]).1

/-! ### Claim C1 — double instantiation of a module -/

/-- For claim C1: a module with no imports and no exports. -/
def c1_module : WasmModule := ⟨[], [], none⟩

/-- For claim C1: a component whose single module is instantiated by two
distinct core instances. -/
def c1_component : Component :=
  .mk [] [] [ModuleNode.defined c1_module] [] [] [] [] []
    [CoreInstanceNode.instantiated 0 [], CoreInstanceNode.instantiated 0 []]
    [] [] [] [] [] []

/-- Claim C1: contrary to the claim, a component that instantiates the
same module twice is processed rather than rejected.  `linking_metadata`
reuses the module metadata on the second observation of module 0 and
records both instantiations, and `from_linking_metadata` — whose
assertion message says each module should be instantiated exactly once —
compares the key *sets* `{mm keys}` and `{module ids of instantiations}`,
which collapse the duplicate, so the whole pipeline succeeds and emits
two modules. -/
theorem c1_double_instantiation_not_rejected :
    (linking_metadata 5 c1_component []).map
      (fun lm => (keys_of lm.instantiations, keys_of lm.mm, lm.instance_map)) =
      .ok ([0, 1], [0], [(0, 0), (1, 0)]) ∧
    (linking_metadata 5 c1_component []).map
      (fun lm =>
        (from_linking_metadata lm).map (fun mods => mods.map (fun x => x.1.module_name))) =
      .ok (.ok [some "module0_instance0", some "module0_instance1"]) := by
  constructor <;> decide

/-! ### Claim C2 — determinism of the serialised output -/

/-- For claim C2: a module with two imports. -/
def c2_module : WasmModule := ⟨[⟨"a", "x"⟩, ⟨"b", "y"⟩], [], none⟩

/-- For claim C2: linking metadata with one instance of one module whose
two imports are classified builtin and true import. -/
def c2_lm : LinkingMetadata :=
  ⟨[], [(0, ⟨c2_module, build_import_map c2_module.imports⟩)], [(0, 0)],
    [(0, ⟨0, [(0, .builtin), (1, .trueImport none)]⟩)], []⟩

/-- One iteration order of the imports map of `c2_lm`. -/
def c2_order1 : List (Nat × ImportKind) := [(0, .builtin), (1, .trueImport none)]

/-- The other iteration order of the same map. -/
def c2_order2 : List (Nat × ImportKind) := [(1, .trueImport none), (0, .builtin)]

/-- Claim C2: contrary to the claim, `serialize_crimp_section` is not a
function of the `LinkingMetadata` value alone: the `builtin{k}`/`stub{k}`
counter is assigned in the iteration order of the instantiation's
`imports` `HashMap`, which Rust leaves unspecified and which varies
between processes.  The two possible iteration orders of the same
two-entry map assign different names to the same imports, so two runs on
the same input can produce different bytes. -/
theorem c2_serialize_depends_on_hashmap_order :
    List.Perm c2_order1 c2_order2 ∧
    (serialize_crimp_section c2_lm 0 c2_order1).map (fun x => x.1.imports) =
      .ok [⟨"crimp-replay", "builtin0"⟩, ⟨"crimp-replay", "stub1"⟩] ∧
    (serialize_crimp_section c2_lm 0 c2_order2).map (fun x => x.1.imports) =
      .ok [⟨"crimp-replay", "builtin1"⟩, ⟨"crimp-replay", "stub0"⟩] ∧
    serialize_crimp_section c2_lm 0 c2_order1 ≠ serialize_crimp_section c2_lm 0 c2_order2 := by
  refine ⟨by decide, by decide, by decide, by decide⟩

/-! ### Claim C6 — core-instance export matching -/

/-- For claim C6: a module whose export list has two entries named `x`
with different kinds (a memory first, then a function). -/
def c6_module : WasmModule := ⟨[], [⟨"x", .memory, 0⟩, ⟨"x", .func, 1⟩], none⟩

/-- For claim C6: a component instantiating that module once. -/
def c6_component : Component :=
  .mk [] [] [ModuleNode.defined c6_module] [] [] [] [] []
    [CoreInstanceNode.instantiated 0 []] [] [] [] [] [] []

/-- Counterexample to claim C6 as stated: the export list of `c6_module`
contains an entry whose `(name, normalised kind)` pair matches the
requested alias (`("x", func)`), yet resolving the alias fails, because
the resolver selects the *first* entry named `x` (the memory) and then
rejects its kind — matching is not by the `(name, kind)` pair. -/
theorem c6_pair_matching_counterexample :
    resolve_alias_export_core_instance 5 c6_component 0 "x" .func =
      .error (kind_mismatch_msg "x" .memory .func) ∧
    c6_module.exports.find?
        (fun e => e.name == "x" &&
          external_kind_normalize e.kind == external_kind_normalize .func) =
      some ⟨"x", .func, 1⟩ := by
  constructor <;> decide

/-- Claim C6 (amended): when resolving a `CoreInstanceExport` alias
through an instantiated module, the originating export list is searched
by *name only* and the first matching entry is taken; its kind — with the
two function external-kinds normalised to one logical function kind — is
then compared against the (likewise normalised) expected alias kind, and
on disagreement resolution fails loudly with both kinds in the
diagnostic. -/
theorem c6_first_name_match_then_kind_check :
    ∀ (fuel ii midx : Nat) (c : Component) (args : List CoreInstantiationArg)
      (m : WasmModule) (name : String) (e : WasmExport) (ek : ExternalKind),
      resolve_core_instance fuel c ii = .ok (.instantiated midx args) →
      c.modules[midx]? = some (.defined m) →
      m.exports.find? (fun x => x.name == name) = some e →
      (external_kind_normalize e.kind = external_kind_normalize ek →
        resolve_alias_export_core_instance (fuel + 1) c ii name ek = .ok (midx, e.index)) ∧
      (external_kind_normalize e.kind ≠ external_kind_normalize ek →
        resolve_alias_export_core_instance (fuel + 1) c ii name ek =
          .error (kind_mismatch_msg name (external_kind_normalize e.kind) ek)) := by
  intro fuel ii midx c args m name e ek hres hmod hfind
  constructor
  · intro hk
    simp [resolve_alias_export_core_instance, hres, hmod, hfind, hk]
  · intro hk
    simp [resolve_alias_export_core_instance, hres, hmod, hfind, hk]

/-- Witness for the amended C6 at the concrete duplicate-name module:
requesting the memory kind resolves to the first entry, requesting the
function kind fails with both kinds in the message. -/
theorem c6_first_name_match_then_kind_check_witness :
    resolve_alias_export_core_instance 5 c6_component 0 "x" .memory = .ok (0, 0) ∧
    resolve_alias_export_core_instance 5 c6_component 0 "x" .func =
      .error (kind_mismatch_msg "x" .memory .func) := by
  have h := c6_first_name_match_then_kind_check 4 0 0 c6_component []
    c6_module "x" ⟨"x", .memory, 0⟩
  exact ⟨(h .memory (by decide) rfl (by decide)).1 (by decide),
    (h .func (by decide) rfl (by decide)).2 (by decide)⟩

/-! ### Claim C8 — unsupported constructs abort before any output -/

/-- An instance node that resolves to a non-imported instance makes the
instance walk of `validate_assumptions` fail. -/
theorem check_instances_loop_fails_of_inline :
    ∀ (fuel : Nat) (c : Component) (nodes : List ComponentInstanceNode)
      (n : ComponentInstanceNode), n ∈ nodes →
      ((∃ ci args, n = .instantiated ci args) ∨ (∃ exports, n = .fromExports exports)) →
      (check_instances_loop fuel c nodes).isOk = false := by
  intro fuel c nodes n hmem hshape
  induction nodes with
  | nil => cases hmem
  | cons m rest ih =>
    rcases List.mem_cons.mp hmem with hm | hm
    · subst hm
      rcases hshape with ⟨ci, args, h⟩ | ⟨exports, h⟩ <;> subst h <;> rfl
    · cases hr : resolve_component_instance_node fuel c m with
      | error e => simp [check_instances_loop, hr, Except.isOk, Except.toBool]
      | ok v =>
        cases v with
        | imported ri => simpa [check_instances_loop, hr, Except.isOk, Except.toBool] using ih hm
        | instantiated ci args => simp [check_instances_loop, hr, Except.isOk, Except.toBool]
        | fromExports exports => simp [check_instances_loop, hr, Except.isOk, Except.toBool]

/-- A syntactically imported module node makes the module walk of
`validate_assumptions` fail (whether or not its import index is in
bounds). -/
theorem check_modules_loop_fails_of_imported :
    ∀ (fuel : Nat) (c : Component) (nodes : List ModuleNode) (i : Nat),
      ModuleNode.imported i ∈ nodes →
      (check_modules_loop fuel c nodes).isOk = false := by
  intro fuel c nodes i hmem
  induction nodes with
  | nil => cases hmem
  | cons m rest ih =>
    rcases List.mem_cons.mp hmem with hm | hm
    · subst hm
      cases hi : get_resolved_import c i with
      | error e => simp [check_modules_loop, resolve_module_node, hi, Except.isOk, Except.toBool]
      | ok ri => simp [check_modules_loop, resolve_module_node, hi, Except.isOk, Except.toBool]
    · cases hr : resolve_module_node fuel c m with
      | error e => simp [check_modules_loop, hr, Except.isOk, Except.toBool]
      | ok v =>
        cases v with
        | imported ri => simp [check_modules_loop, hr, Except.isOk, Except.toBool]
        | defined mm => simpa [check_modules_loop, hr, Except.isOk, Except.toBool] using ih hm

/-- Claim C8: for every component containing a nested component, an
externally imported core module, or an inline component instance,
`validate_assumptions` fails, so the run aborts before any module is
rewritten: the output directory is prepared but no file is written and
the process exits with an error, whatever the external validator would
have said. -/
theorem c8_unsupported_constructs_abort :
    ∀ (fuel : Nat) (c : Component) (checksum : Checksum)
      (validator : WasmModule → Except String Unit),
      (c.components ≠ [] ∨
        (∃ n ∈ c.instances,
          (∃ ci args, n = ComponentInstanceNode.instantiated ci args) ∨
          (∃ exports, n = ComponentInstanceNode.fromExports exports)) ∨
        (∃ i, ModuleNode.imported i ∈ c.modules)) →
      (validate_assumptions fuel c).isOk = false ∧
      main_run fuel validator c checksum = ⟨true, [], false⟩ := by
  intro fuel c checksum validator h
  have hva : (validate_assumptions fuel c).isOk = false := by
    rcases h with h | ⟨n, hmem, hshape⟩ | ⟨i, hmem⟩
    · have : c.components.isEmpty = false := by
        cases hc : c.components with
        | nil => exact absurd hc h
        | cons a l => rfl
      simp [validate_assumptions, this, Except.isOk, Except.toBool]
    · cases hc : c.components.isEmpty with
      | false => simp [validate_assumptions, hc, Except.isOk, Except.toBool]
      | true =>
        have hl := check_instances_loop_fails_of_inline fuel c c.instances n hmem hshape
        cases hil : check_instances_loop fuel c c.instances with
        | error e => simp [validate_assumptions, hc, hil, Except.isOk, Except.toBool]
        | ok u => rw [hil] at hl; cases hl
    · cases hc : c.components.isEmpty with
      | false => simp [validate_assumptions, hc, Except.isOk, Except.toBool]
      | true =>
        cases hil : check_instances_loop fuel c c.instances with
        | error e => simp [validate_assumptions, hc, hil, Except.isOk, Except.toBool]
        | ok u =>
          have hl := check_modules_loop_fails_of_imported fuel c c.modules i hmem
          cases hml : check_modules_loop fuel c c.modules with
          | error e => simp [validate_assumptions, hc, hil, hml, Except.isOk, Except.toBool]
          | ok u2 => rw [hml] at hl; cases hl
  refine ⟨hva, ?_⟩
  cases hv : validate_assumptions fuel c with
  | error e => simp [main_run, from_component, hv]
  | ok u => rw [hv] at hva; cases hva

/-- For claim C8: a component containing an inline (`FromExports`)
component instance. -/
def c8_component : Component :=
  .mk [] [] [] [] [ComponentInstanceNode.fromExports []] [] [] [] [] [] [] [] [] [] []

/-- Witness for C8 at a concrete component with an inline component
instance: validation fails and the run writes nothing. -/
theorem c8_unsupported_constructs_abort_witness :
    (validate_assumptions 1 c8_component).isOk = false ∧
    main_run 1 (fun _ => Except.ok ()) c8_component [] = ⟨true, [], false⟩ :=
  c8_unsupported_constructs_abort 1 c8_component [] (fun _ => Except.ok ())
    (Or.inr (Or.inl ⟨ComponentInstanceNode.fromExports [], by decide,
      Or.inr ⟨[], rfl⟩⟩))

/-! ### Claim C4 — arg bundles exactly cover the required imports -/

/-- Removing a binding from an association list yields a permutation. -/
theorem remove_key_perm {κ α : Type} [BEq κ] [LawfulBEq κ] :
    ∀ (l : List (κ × α)) (k : κ) (v : α) (l2 : List (κ × α)),
      remove_key l k = some (v, l2) → l.Perm ((k, v) :: l2) := by
  intro l
  induction l with
  | nil => intro k v l2 h; cases h
  | cons p t ih =>
    intro k v l2 h
    obtain ⟨k0, v0⟩ := p
    by_cases hk : (k0 == k) = true
    · rw [remove_key, if_pos hk] at h
      have hk2 : k0 = k := by simpa using hk
      subst hk2
      cases h
      exact List.Perm.refl _
    · rw [remove_key, if_neg hk] at h
      cases hrec : remove_key t k with
      | none => rw [hrec] at h; cases h
      | some q =>
        obtain ⟨q1, q2⟩ := q
        rw [hrec] at h
        simp only [Option.map_some', Option.some.injEq, Prod.mk.injEq] at h
        obtain ⟨hv1, hv2⟩ := h
        subst hv1
        subst hv2
        have ht := ih k q1 q2 hrec
        exact (ht.cons (k0, v0)).trans (List.Perm.swap _ _ _)

/-- A key absent from an association list cannot be removed. -/
theorem remove_key_eq_none {κ α : Type} [BEq κ] [LawfulBEq κ] :
    ∀ (l : List (κ × α)) (k : κ), List.lookup k l = none → remove_key l k = none := by
  intro l
  induction l with
  | nil => intro k _; rfl
  | cons p t ih =>
    intro k h
    obtain ⟨k0, v0⟩ := p
    rw [List.lookup] at h
    cases hk : (k == k0) with
    | true => simp only [hk] at h; cases h
    | false =>
      simp only [hk] at h
      have hk2 : (k0 == k) = false := by
        simp only [beq_eq_false_iff_ne] at hk ⊢
        exact fun he => hk he.symm
      simp [remove_key, hk2, ih k h]

/-- The `(module-name, member-name)` pairs of an import index map. -/
def expected_pairs (expected : List (String × List (String × Nat))) : List (String × String) :=
  expected.flatMap (fun x => x.2.map (fun y => (x.1, y.1)))

/-- The `(module-name, member-name)` pairs provided by the arg bundles:
each arg pairs its name with the export names of the `FromExports`
instance it refers to. -/
def args_pairs (synth : List (Nat × List CoreExport))
    (args : List CoreInstantiationArg) : List (String × String) :=
  args.flatMap (fun a => ((List.lookup a.index synth).getD []).map (fun e => (a.name, e.name)))

/-- A successful step of the export walk removes the export's name from
the member imports and continues on the rest. -/
theorem gather_link_loop_cons_ok (fuel : Nat) (c : Component)
    (imap : List (Nat × Nat)) (li : List (Nat × ImportKind))
    (member : List (String × Nat)) (e : CoreExport) (rest : List CoreExport)
    (r : List (Nat × ImportKind) × List (String × Nat)) :
    gather_link_loop fuel c imap li member (e :: rest) = .ok r →
    ∃ v member2 li2, remove_key member e.name = some (v, member2) ∧
      gather_link_loop fuel c imap li2 member2 rest = .ok r := by
  intro h
  rw [gather_link_loop] at h
  repeat'
    first
    | exact ⟨_, _, _, by assumption, h⟩
    | split at h
    | cases h

/-- A successful export walk consumes exactly the export names from the
member imports: the member keys are a permutation of the export names
plus the leftover keys. -/
theorem gather_link_loop_ok_keys (fuel : Nat) (c : Component)
    (imap : List (Nat × Nat)) :
    ∀ (exports : List CoreExport) (li : List (Nat × ImportKind))
      (member : List (String × Nat)) (r : List (Nat × ImportKind) × List (String × Nat)),
      gather_link_loop fuel c imap li member exports = .ok r →
      (member.map Prod.fst).Perm (exports.map (fun e => e.name) ++ r.2.map Prod.fst) := by
  intro exports
  induction exports with
  | nil =>
    intro li member r h
    rw [gather_link_loop] at h
    cases h
    simp
  | cons e rest ih =>
    intro li member r h
    obtain ⟨v, member2, li2, hrm, hloop⟩ := gather_link_loop_cons_ok fuel c imap li member e rest r h
    have hperm := remove_key_perm member e.name v member2 hrm
    have hkeys : (member.map Prod.fst).Perm (e.name :: member2.map Prod.fst) := by
      simpa using hperm.map Prod.fst
    have ih2 := ih li2 member2 r hloop
    exact hkeys.trans (ih2.cons e.name)

/-- A successful `gather_instance_link` consumes the member imports
exactly: the member keys are a permutation of the provided export
names. -/
theorem gather_instance_link_ok_keys (fuel : Nat) (c : Component)
    (li : List (Nat × ImportKind)) (member : List (String × Nat))
    (exports : List CoreExport) (imap : List (Nat × Nat))
    (li2 : List (Nat × ImportKind)) :
    gather_instance_link fuel c li member exports imap = .ok li2 →
    (member.map Prod.fst).Perm (exports.map (fun e => e.name)) := by
  intro h
  unfold gather_instance_link at h
  cases hloop : gather_link_loop fuel c imap li member exports with
  | error e2 => rw [hloop] at h; cases h
  | ok p =>
    obtain ⟨li3, mem3⟩ := p
    simp only [hloop] at h
    cases hemp : mem3.isEmpty with
    | false => simp only [hemp] at h; simp at h
    | true =>
      have hp2 : mem3 = [] := by
        cases p2 : mem3 with
        | nil => rfl
        | cons a l => rw [p2] at hemp; cases hemp
      have hkeys := gather_link_loop_ok_keys fuel c imap exports li member (li3, mem3) hloop
      rw [hp2] at hkeys
      simpa using hkeys

/-- A successful arg walk consumes the expected imports exactly: the
expected pairs are a permutation of the provided pairs plus the pairs of
the leftover map, and each arg removes exactly one module-name bundle. -/
theorem link_args_ok_pairs (fuel : Nat) (c : Component)
    (synth : List (Nat × List CoreExport)) (imap : List (Nat × Nat)) :
    ∀ (args : List CoreInstantiationArg)
      (expected : List (String × List (String × Nat)))
      (acc res : List (Nat × ImportKind)),
      link_args fuel c synth imap expected acc args = .ok res →
      ∃ expected2,
        (expected_pairs expected).Perm (args_pairs synth args ++ expected_pairs expected2) ∧
        expected.length = args.length + expected2.length := by
  intro args
  induction args with
  | nil =>
    intro expected acc res h
    exact ⟨expected, by simp [args_pairs], by simp⟩
  | cons arg rest ih =>
    intro expected acc res h
    rw [link_args] at h
    cases harg : arg.kind with
    | inst =>
      simp only [harg] at h
      cases hsyn : List.lookup arg.index synth with
      | none => simp only [hsyn] at h; cases h
      | some instance_exports =>
        simp only [hsyn] at h
        cases hrm : remove_key expected arg.name with
        | none => simp only [hrm] at h; cases h
        | some p =>
          obtain ⟨member, expected2⟩ := p
          simp only [hrm] at h
          cases hgil : gather_instance_link fuel c acc member instance_exports imap with
          | error e2 => simp only [hgil] at h; cases h
          | ok acc2 =>
            simp only [hgil] at h
            obtain ⟨expected3, hperm3, hlen3⟩ := ih expected2 acc2 res h
            have hkeys := gather_instance_link_ok_keys fuel c acc member instance_exports imap acc2 hgil
            have hexp := remove_key_perm expected arg.name member expected2 hrm
            have hexp_pairs : (expected_pairs expected).Perm
                (member.map (fun y => (arg.name, y.1)) ++ expected_pairs expected2) := by
              have := hexp.flatMap_right (fun x => x.2.map (fun y => (x.1, y.1)))
              simpa [expected_pairs] using this
            have hmember : (member.map (fun y => (arg.name, y.1))).Perm
                (instance_exports.map (fun e => (arg.name, e.name))) := by
              have h1 : member.map (fun y => (arg.name, y.1)) =
                  (member.map Prod.fst).map (fun s => (arg.name, s)) := by
                simp [Function.comp]
              have h2 : instance_exports.map (fun e => (arg.name, e.name)) =
                  (instance_exports.map (fun e => e.name)).map (fun s => (arg.name, s)) := by
                simp [Function.comp]
              rw [h1, h2]
              exact hkeys.map _
            refine ⟨expected3, ?_, ?_⟩
            · have hstep : (expected_pairs expected).Perm
                  (instance_exports.map (fun e => (arg.name, e.name)) ++ expected_pairs expected2) :=
                hexp_pairs.trans (hmember.append_right _)
              have hrest : (instance_exports.map (fun e => (arg.name, e.name)) ++
                    expected_pairs expected2).Perm
                  (instance_exports.map (fun e => (arg.name, e.name)) ++
                    (args_pairs synth rest ++ expected_pairs expected3)) :=
                hperm3.append_left _
              have hfinal := hstep.trans hrest
              have hshape : args_pairs synth (arg :: rest) ++ expected_pairs expected3 =
                  instance_exports.map (fun e => (arg.name, e.name)) ++
                    (args_pairs synth rest ++ expected_pairs expected3) := by
                simp [args_pairs, hsyn, List.append_assoc]
              rw [hshape]
              exact hfinal
            · have hlen1 : expected.length = expected2.length + 1 := by
                simpa using hexp.length_eq
              simp only [List.length_cons]
              omega

/-- Claim C4: for every `Instantiated` core instance the Builder accepts,
the multiset of `(module-name, member-name)` pairs provided by the arg
bundles equals the multiset of pairs of the target module's import index
map (so in particular the union of the bundles' key-sets equals the
required-import key-set); and the violations abort: an export with no
matching member import aborts, leftover member imports after a bundle
abort, and an arg count different from the number of distinct imported
module-names aborts. -/
theorem c4_arg_bundles_cover_imports :
    (∀ (fuel : Nat) (c : Component) (synth : List (Nat × List CoreExport))
       (imap : List (Nat × Nat)) (mm : List (Nat × ModuleMetadata))
       (iidx midx : Nat) (args : List CoreInstantiationArg) (md : ModuleMetadata)
       (mm2 : List (Nat × ModuleMetadata)) (imd : InstantiationLinkingMetadata),
      List.lookup midx mm = some md →
      process_instantiated fuel c synth imap mm iidx midx args = .ok (mm2, imd) →
      (expected_pairs md.import_map).Perm (args_pairs synth args)) ∧
    (∀ (fuel : Nat) (c : Component) (synth : List (Nat × List CoreExport))
       (imap : List (Nat × Nat)) (mm : List (Nat × ModuleMetadata))
       (iidx midx : Nat) (args : List CoreInstantiationArg) (module : WasmModule)
       (mm2 : List (Nat × ModuleMetadata)) (imd : InstantiationLinkingMetadata),
      List.lookup midx mm = none →
      resolve_module fuel c midx = .ok (.defined module) →
      process_instantiated fuel c synth imap mm iidx midx args = .ok (mm2, imd) →
      (expected_pairs (build_import_map module.imports)).Perm (args_pairs synth args)) ∧
    (∀ (fuel : Nat) (c : Component) (synth : List (Nat × List CoreExport))
       (imap : List (Nat × Nat)) (mm : List (Nat × ModuleMetadata))
       (iidx midx : Nat) (args : List CoreInstantiationArg) (md : ModuleMetadata),
      List.lookup midx mm = some md →
      args.length ≠ md.import_map.length →
      process_instantiated fuel c synth imap mm iidx midx args =
        .error "assertion failed: args.len() == expected_imports.len()") ∧
    (∀ (fuel : Nat) (c : Component) (li : List (Nat × ImportKind))
       (member : List (String × Nat)) (e : CoreExport) (rest : List CoreExport)
       (imap : List (Nat × Nat)),
      List.lookup e.name member = none →
      gather_instance_link fuel c li member (e :: rest) imap =
        .error "export should be matched by an import") ∧
    (∀ (fuel : Nat) (c : Component) (li : List (Nat × ImportKind))
       (member : List (String × Nat)) (imap : List (Nat × Nat)),
      member ≠ [] →
      gather_instance_link fuel c li member [] imap =
        .error "All imports should be matched by exports") := by
  refine ⟨?_, ?_, ?_, ?_, ?_⟩
  · intro fuel c synth imap mm iidx midx args md mm2 imd hlk h
    simp only [process_instantiated, hlk] at h
    split at h
    · cases h
    · rename_i hne
      have hlen2 : args.length = md.import_map.length := not_ne_iff.mp hne
      cases hla : link_args fuel c synth imap md.import_map [] args with
      | error e => simp only [hla] at h; cases h
      | ok imports =>
        obtain ⟨expected2, hperm, hlen3⟩ := link_args_ok_pairs fuel c synth imap
          args md.import_map [] imports hla
        have hexp2 : expected2 = [] := by
          have : expected2.length = 0 := by omega
          exact List.length_eq_zero.mp this
        rw [hexp2] at hperm
        simpa [expected_pairs] using hperm
  · intro fuel c synth imap mm iidx midx args module mm2 imd hlk hres h
    simp only [process_instantiated, hlk, hres, ResolvedModule.defined_module] at h
    split at h
    · cases h
    · rename_i hne
      have hlen2 : args.length = (build_import_map module.imports).length := not_ne_iff.mp hne
      cases hla : link_args fuel c synth imap (build_import_map module.imports) [] args with
      | error e => simp only [hla] at h; cases h
      | ok imports =>
        obtain ⟨expected2, hperm, hlen3⟩ := link_args_ok_pairs fuel c synth imap
          args (build_import_map module.imports) [] imports hla
        have hexp2 : expected2 = [] := by
          have : expected2.length = 0 := by omega
          exact List.length_eq_zero.mp this
        rw [hexp2] at hperm
        simpa [expected_pairs] using hperm
  · intro fuel c synth imap mm iidx midx args md hlk hne
    simp only [process_instantiated, hlk]
    split
    · rfl
    · rename_i hcond
      exact absurd hne hcond
  · intro fuel c li member e rest imap hlk
    have hrm := remove_key_eq_none member e.name hlk
    simp [gather_instance_link, gather_link_loop, hrm]
  · intro fuel c li member imap hne
    cases member with
    | nil => exact absurd rfl hne
    | cons a l => rfl

/-- For claim C4: a module importing `("A", "f")` and `("A", "g")`. -/
def c4_module : WasmModule := ⟨[⟨"A", "f"⟩, ⟨"A", "g"⟩], [], none⟩

/-- For claim C4: a component with a `FromExports` bundle feeding the
instantiation of that module; both provided funcs resolve to resource
drops. -/
def c4_component : Component :=
  .mk [] [] [ModuleNode.defined c4_module] [] [] [] [] []
    [CoreInstanceNode.fromExports [⟨"f", .func, 0⟩, ⟨"g", .func, 0⟩],
      CoreInstanceNode.instantiated 0 [⟨"A", .inst, 0⟩]]
    [CoreFuncNode.resourceDrop 7] [] [] [] [] []

/-- For claim C4: the synthetic export bundles seen before instance 1. -/
def c4_synth : List (Nat × List CoreExport) := [(0, [⟨"f", .func, 0⟩, ⟨"g", .func, 0⟩])]

/-- For claim C4: the instantiation args of instance 1. -/
def c4_args : List CoreInstantiationArg := [⟨"A", .inst, 0⟩]

/-- Witness for C4 at a concrete instantiation: the provided pairs cover
the import map exactly, and each of the three violations aborts. -/
theorem c4_arg_bundles_cover_imports_witness :
    (expected_pairs (build_import_map c4_module.imports)).Perm
      (args_pairs c4_synth c4_args) ∧
    process_instantiated 5 c4_component c4_synth [(1, 0)]
        [(0, ⟨c4_module, build_import_map c4_module.imports⟩)] 1 0 [] =
      .error "assertion failed: args.len() == expected_imports.len()" ∧
    gather_instance_link 5 c4_component [] [("z", 0)] [⟨"f", .func, 0⟩] [(1, 0)] =
      .error "export should be matched by an import" ∧
    gather_instance_link 5 c4_component [] [("f", 0)] [] [(1, 0)] =
      .error "All imports should be matched by exports" := by
  obtain ⟨ha, hb, hc, hd, he⟩ := c4_arg_bundles_cover_imports
  refine ⟨?_, ?_, ?_, ?_⟩
  · exact hb 5 c4_component c4_synth [(1, 0)] [] 1 0 c4_args c4_module
      [(0, ⟨c4_module, build_import_map c4_module.imports⟩)]
      ⟨1, [(0, .builtin), (1, .builtin)]⟩ rfl (by decide) (by decide)
  · exact hc 5 c4_component c4_synth [(1, 0)]
      [(0, ⟨c4_module, build_import_map c4_module.imports⟩)] 1 0 []
      ⟨c4_module, build_import_map c4_module.imports⟩ (by decide) (by decide)
  · exact hd 5 c4_component [] [("z", 0)] ⟨"f", .func, 0⟩ [] [(1, 0)] (by decide)
  · exact he 5 c4_component [] [("f", 0)] [(1, 0)] (by decide)

/-! ### Claim C3 — shape of the rewritten imports -/

/-- The import shape claim C3 requires after rewriting: either a
`crimp-replay` builtin/stub pair, or the rewritten module name of a peer
emitted instance together with the member name recorded in the
classification. -/
def rewritten_import_ok (lm : LinkingMetadata) (order : List (Nat × ImportKind))
    (imp : WasmImport) : Prop :=
  (imp.module = "crimp-replay" ∧
    ∃ k : Nat, imp.name = "builtin" ++ toString k ∨ imp.name = "stub" ++ toString k) ∨
  (∃ package pm idx, List.lookup package lm.instance_map = some pm ∧
    package ∈ keys_of lm.instantiations ∧
    imp.module = module_name_from_ids pm package ∧
    (idx, ImportKind.rename package imp.name) ∈ order)

/-- Setting one rewritten import preserves the per-slot shape
invariant. -/
theorem rewritten_inv_step (lm : LinkingMetadata) (order0 : List (Nat × ImportKind))
    (module : WasmModule) (populated : List Bool) (idx : Nat) (M N : String)
    (hidx : idx < module.imports.length)
    (hnew : rewritten_import_ok lm order0 ⟨M, N⟩)
    (hinv : ∀ (j : Nat) (imp : WasmImport), populated[j]? = some true → module.imports[j]? = some imp →
      rewritten_import_ok lm order0 imp) :
    ∀ (j : Nat) (imp : WasmImport), (populated.set idx true)[j]? = some true →
      (set_import_name module M N idx).imports[j]? = some imp →
      rewritten_import_ok lm order0 imp := by
  intro j imp hp hm
  by_cases hj : idx = j
  · subst hj
    have hset : (set_import_name module M N idx).imports[idx]? = some ⟨M, N⟩ := by
      simp only [set_import_name]
      exact List.getElem?_set_self hidx
    rw [hset] at hm
    injection hm with hm2
    rw [← hm2]
    exact hnew
  · rw [List.getElem?_set_ne hj] at hp
    have hm2 : module.imports[j]? = some imp := by
      simpa [set_import_name, List.getElem?_set_ne hj] using hm
    exact hinv j imp hp hm2

/-- Setting one populated slot updates the populated description. -/
theorem populated_step (populated : List Bool) (idx : Nat)
    (hidx : idx < populated.length) :
    ∀ j, (populated.set idx true)[j]? = some true ↔
      (j = idx ∨ populated[j]? = some true) := by
  intro j
  by_cases hj : idx = j
  · subst hj
    simp [List.getElem?_set_self hidx]
  · rw [List.getElem?_set_ne hj]
    constructor
    · exact fun h => Or.inr h
    · rintro (h | h)
      · exact absurd h.symm hj
      · exact h

/-- The invariant of the import-rewriting loop: with in-range ids,
resolvable rename packages and adapter options without post-return, the
loop succeeds, preserves lengths, marks exactly the processed ids
populated, and every populated slot holds an import of the required
shape. -/
theorem rewrite_imports_invariant (lm : LinkingMetadata) (order0 : List (Nat × ImportKind)) :
    ∀ (order : List (Nat × ImportKind)) (module : WasmModule) (populated : List Bool)
      (counter : Nat) (adapters : List ImportAdapterCrimpData),
      populated.length = module.imports.length →
      (∀ pair ∈ order, pair.1 < module.imports.length) →
      (∀ idx pkg member, (idx, ImportKind.rename pkg member) ∈ order →
        ∃ pm, List.lookup pkg lm.instance_map = some pm ∧ pkg ∈ keys_of lm.instantiations) →
      (∀ idx o, (idx, ImportKind.trueImport (some o)) ∈ order → o.post_return = none) →
      (∀ pair ∈ order, pair ∈ order0) →
      (∀ (j : Nat) (imp : WasmImport), populated[j]? = some true → module.imports[j]? = some imp →
        rewritten_import_ok lm order0 imp) →
      ∃ m pop cnt adp,
        rewrite_imports lm module populated counter adapters order = .ok (m, pop, cnt, adp) ∧
        m.imports.length = module.imports.length ∧
        pop.length = populated.length ∧
        (∀ j : Nat, pop[j]? = some true ↔ (populated[j]? = some true ∨ j ∈ keys_of order)) ∧
        (∀ (j : Nat) (imp : WasmImport), pop[j]? = some true → m.imports[j]? = some imp →
          rewritten_import_ok lm order0 imp) := by
  intro order
  induction order with
  | nil =>
    intro module populated counter adapters hlen hcov hren hpost hmem hinv
    exact ⟨module, populated, counter, adapters, rfl, rfl, rfl,
      by simp [keys_of], hinv⟩
  | cons p rest ih =>
    intro module populated counter adapters hlen hcov hren hpost hmem hinv
    obtain ⟨idx, kind⟩ := p
    have hidx : idx < module.imports.length := hcov (idx, kind) (List.mem_cons_self _ _)
    have hidx2 : idx < populated.length := by omega
    have hcov2 : ∀ pair ∈ rest, pair.1 < module.imports.length :=
      fun pair hp => hcov pair (List.mem_cons_of_mem _ hp)
    have hren2 : ∀ idx2 pkg member, (idx2, ImportKind.rename pkg member) ∈ rest →
        ∃ pm, List.lookup pkg lm.instance_map = some pm ∧ pkg ∈ keys_of lm.instantiations :=
      fun idx2 pkg member hp => hren idx2 pkg member (List.mem_cons_of_mem _ hp)
    have hpost2 : ∀ idx2 o, (idx2, ImportKind.trueImport (some o)) ∈ rest →
        o.post_return = none :=
      fun idx2 o hp => hpost idx2 o (List.mem_cons_of_mem _ hp)
    have hmem2 : ∀ pair ∈ rest, pair ∈ order0 :=
      fun pair hp => hmem pair (List.mem_cons_of_mem _ hp)
    have hiff_glue : ∀ (pop : List Bool),
        (∀ j : Nat, pop[j]? = some true ↔
          ((populated.set idx true)[j]? = some true ∨ j ∈ keys_of rest)) →
        ∀ j : Nat, pop[j]? = some true ↔
          (populated[j]? = some true ∨ j ∈ keys_of ((idx, kind) :: rest)) := by
      intro pop hiff j
      rw [hiff j, populated_step populated idx hidx2 j]
      simp only [keys_of, List.map_cons, List.mem_cons]
      tauto
    cases kind with
    | builtin =>
      have hnew : rewritten_import_ok lm order0
          ⟨"crimp-replay", "builtin" ++ toString counter⟩ :=
        Or.inl ⟨rfl, counter, Or.inl rfl⟩
      obtain ⟨m, pop, cnt, adp, heq, hl1, hl2, hiff, hshape⟩ :=
        ih (set_import_name module "crimp-replay" ("builtin" ++ toString counter) idx)
          (populated.set idx true) (counter + 1) adapters
          (by simp [set_import_name, hlen])
          (by simpa [set_import_name] using hcov2) hren2 hpost2 hmem2
          (rewritten_inv_step lm order0 module populated idx _ _ hidx hnew hinv)
      refine ⟨m, pop, cnt, adp, ?_, ?_, ?_, hiff_glue pop hiff, hshape⟩
      · rw [rewrite_imports, if_pos hidx2]
        exact heq
      · rw [hl1]; simp [set_import_name]
      · rw [hl2]; simp
    | trueImport opts =>
      have hnew : rewritten_import_ok lm order0
          ⟨"crimp-replay", "stub" ++ toString counter⟩ :=
        Or.inl ⟨rfl, counter, Or.inr rfl⟩
      have hstep := rewritten_inv_step lm order0 module populated idx
        "crimp-replay" ("stub" ++ toString counter) hidx hnew hinv
      cases opts with
      | none =>
        obtain ⟨m, pop, cnt, adp, heq, hl1, hl2, hiff, hshape⟩ :=
          ih (set_import_name module "crimp-replay" ("stub" ++ toString counter) idx)
            (populated.set idx true) (counter + 1) adapters
            (by simp [set_import_name, hlen])
            (by simpa [set_import_name] using hcov2) hren2 hpost2 hmem2 hstep
        refine ⟨m, pop, cnt, adp, ?_, ?_, ?_, hiff_glue pop hiff, hshape⟩
        · rw [rewrite_imports, if_pos hidx2]
          exact heq
        · rw [hl1]; simp [set_import_name]
        · rw [hl2]; simp
      | some o =>
        have ho : o.post_return = none :=
          hpost idx o (List.mem_cons_self _ _)
        obtain ⟨m, pop, cnt, adp, heq, hl1, hl2, hiff, hshape⟩ :=
          ih (set_import_name module "crimp-replay" ("stub" ++ toString counter) idx)
            (populated.set idx true) (counter + 1) (adapters ++ [⟨idx, o.memory, o.realloc⟩])
            (by simp [set_import_name, hlen])
            (by simpa [set_import_name] using hcov2) hren2 hpost2 hmem2 hstep
        refine ⟨m, pop, cnt, adp, ?_, ?_, ?_, hiff_glue pop hiff, hshape⟩
        · rw [rewrite_imports, if_pos hidx2]
          simp only [ho, Option.isSome_none, Bool.false_eq_true, if_false]
          exact heq
        · rw [hl1]; simp [set_import_name]
        · rw [hl2]; simp
    | rename pkg member =>
      obtain ⟨pm, hlk, hmemk⟩ := hren idx pkg member (List.mem_cons_self _ _)
      have hnew : rewritten_import_ok lm order0 ⟨module_name_from_ids pm pkg, member⟩ :=
        Or.inr ⟨pkg, pm, idx, hlk, hmemk, rfl,
          hmem (idx, ImportKind.rename pkg member) (List.mem_cons_self _ _)⟩
      obtain ⟨m, pop, cnt, adp, heq, hl1, hl2, hiff, hshape⟩ :=
        ih (set_import_name module (module_name_from_ids pm pkg) member idx)
          (populated.set idx true) counter adapters
          (by simp [set_import_name, hlen])
          (by simpa [set_import_name] using hcov2) hren2 hpost2 hmem2
          (rewritten_inv_step lm order0 module populated idx _ _ hidx hnew hinv)
      refine ⟨m, pop, cnt, adp, ?_, ?_, ?_, hiff_glue pop hiff, hshape⟩
      · rw [rewrite_imports, if_pos hidx2]
        simp only [hlk]
        exact heq
      · rw [hl1]; simp [set_import_name]
      · rw [hl2]; simp

/-- Claim C3: for metadata produced by the Builder — the iteration order
covers each import id of the module exactly once, every rename package is
an instantiated instance present in the instance map, and no true-import
adapter carries a post-return — `serialize_crimp_section` succeeds (in
particular the populated assertion cannot fail), and every import of the
emitted module is either `("crimp-replay", "builtin{k}")`,
`("crimp-replay", "stub{k}")`, or `(module{m}_instance{i}, member)` for a
peer emitted instance. -/
theorem c3_rewritten_imports_shape :
    ∀ (lm : LinkingMetadata) (instance_id module_id : Nat) (md : ModuleMetadata)
      (imd : InstantiationLinkingMetadata) (order : List (Nat × ImportKind)),
      List.lookup instance_id lm.instance_map = some module_id →
      List.lookup module_id lm.mm = some md →
      List.lookup instance_id lm.instantiations = some imd →
      (keys_of order).Perm (List.range md.module.imports.length) →
      (∀ idx pkg member, (idx, ImportKind.rename pkg member) ∈ order →
        ∃ pm, List.lookup pkg lm.instance_map = some pm ∧ pkg ∈ keys_of lm.instantiations) →
      (∀ idx o, (idx, ImportKind.trueImport (some o)) ∈ order → o.post_return = none) →
      ∃ m data, serialize_crimp_section lm instance_id order = .ok (m, data) ∧
        m.imports.length = md.module.imports.length ∧
        ∀ imp ∈ m.imports, rewritten_import_ok lm order imp := by
  intro lm instance_id module_id md imd order h1 h2 h3 hperm hren hpost
  have hcov : ∀ pair ∈ order,
      pair.1 < ({ md.module with
        module_name := some (module_name_from_ids module_id instance_id) } : WasmModule).imports.length := by
    intro pair hp
    have hk : pair.1 ∈ keys_of order := List.mem_map_of_mem Prod.fst hp
    have hr := (hperm.mem_iff).mp hk
    simpa using List.mem_range.mp hr
  obtain ⟨m, pop, cnt, adp, heq, hl1, hl2, hiff, hshape⟩ :=
    rewrite_imports_invariant lm order order
      { md.module with module_name := some (module_name_from_ids module_id instance_id) }
      (List.replicate md.module.imports.length false) 0 []
      (by simp) hcov hren hpost (fun p hp => hp)
      (fun j imp hp hm => by
        rcases Nat.lt_or_ge j md.module.imports.length with hj | hj
        · rw [List.getElem?_replicate_of_lt hj] at hp
          cases hp
        · rw [List.getElem?_eq_none (by simpa using hj)] at hp
          cases hp)
  have hall : pop.all (fun b => b) = true := by
    apply List.all_eq_true.mpr
    intro b hb
    obtain ⟨j, hj⟩ := List.getElem?_of_mem hb
    have hjlt : j < pop.length := by
      by_contra hcon
      rw [List.getElem?_eq_none (by omega)] at hj
      cases hj
    have hjn : j < md.module.imports.length := by
      have := hl2
      simp at this
      omega
    have hjmem : j ∈ keys_of order :=
      (hperm.mem_iff).mpr (List.mem_range.mpr hjn)
    have htrue : pop[j]? = some true := (hiff j).mpr (Or.inr hjmem)
    have hb2 : b = true := by simpa using hj.symm.trans htrue
    exact hb2
  refine ⟨m, ⟨lm.checksum, instance_id, imd.instantiate_order, adp,
    (List.lookup instance_id lm.export_funcs).getD []⟩, ?_, ?_, ?_⟩
  · simp [serialize_crimp_section, h1, h2, h3, heq, hall]
  · simpa using hl1
  · intro imp himp
    obtain ⟨j, hj⟩ := List.getElem?_of_mem himp
    have hjlt : j < m.imports.length := by
      by_contra hcon
      rw [List.getElem?_eq_none (by omega)] at hj
      cases hj
    have hjn : j < md.module.imports.length := by
      have := hl1
      simp at this
      omega
    have hjmem : j ∈ keys_of order :=
      (hperm.mem_iff).mpr (List.mem_range.mpr hjn)
    exact hshape j imp ((hiff j).mpr (Or.inr hjmem)) hj

/-- For claim C3: a module with three imports, one per classification
kind. -/
def c3_module : WasmModule := ⟨[⟨"a", "f"⟩, ⟨"e", "h"⟩, ⟨"p", "q"⟩], [], none⟩

/-- For claim C3: the iteration order of the classified-imports map of
instance 0: a builtin, a true import with a memory/realloc adapter, and a
rename to peer instance 1. -/
def c3_order : List (Nat × ImportKind) :=
  [(0, .builtin),
   (1, .trueImport (some ⟨some ⟨1, "m"⟩, some ⟨1, "r"⟩, none⟩)),
   (2, .rename 1 "g")]

/-- For claim C3: linking metadata with two instantiated instances, the
first of which carries the three classified imports. -/
def c3_lm : LinkingMetadata :=
  ⟨[], [(0, ⟨c3_module, []⟩), (1, ⟨⟨[], [], none⟩, []⟩)], [(0, 0), (1, 1)],
    [(0, ⟨0, c3_order⟩), (1, ⟨1, []⟩)], []⟩

/-- Witness for C3 at the concrete metadata: serialisation succeeds. -/
theorem c3_rewritten_imports_shape_witness :
    (serialize_crimp_section c3_lm 0 c3_order).isOk = true := by
  have hren : ∀ (idx pkg : Nat) (member : String),
      (idx, ImportKind.rename pkg member) ∈ c3_order →
      ∃ pm, List.lookup pkg c3_lm.instance_map = some pm ∧
        pkg ∈ keys_of c3_lm.instantiations := by
    intro idx pkg member h
    simp only [c3_order, List.mem_cons, List.not_mem_nil, or_false, Prod.mk.injEq] at h
    rcases h with ⟨h1, h2⟩ | ⟨h1, h2⟩ | ⟨h1, h2⟩
    · cases h2
    · cases h2
    · injection h2 with ha hb
      subst ha
      exact ⟨1, rfl, by decide⟩
  have hpost : ∀ (idx : Nat) (o : CanonicalOptionsIndex),
      (idx, ImportKind.trueImport (some o)) ∈ c3_order → o.post_return = none := by
    intro idx o h
    simp only [c3_order, List.mem_cons, List.not_mem_nil, or_false, Prod.mk.injEq] at h
    rcases h with ⟨h1, h2⟩ | ⟨h1, h2⟩ | ⟨h1, h2⟩
    · cases h2
    · injection h2 with ho
      injection ho with ho2
      rw [ho2]
    · cases h2
  obtain ⟨m, data, heq, hlen, hshape⟩ :=
    c3_rewritten_imports_shape c3_lm 0 0 ⟨c3_module, []⟩ ⟨0, c3_order⟩ c3_order
      rfl rfl rfl (by decide) hren hpost
  rw [heq]
  rfl

end Decompose
